import Mathlib

/-!
Verification development for the Fanar MCP tool-call orchestration engine
(file src/prompt-engineered-llm.ts: class PromptEngineeredLLM and class
FanarMCPClient).  The TypeScript code is shallowly embedded: every method is
a total Lean function with the mutable object state threaded explicitly,
JavaScript exceptions are modelled with Except, and Date.now() reads are
modelled by explicit time arguments or an indexed time oracle.  JavaScript
strings are modelled by Lean String (code points instead of UTF-16 units),
and JSON parameter objects are modelled as association lists of
(key, serialized value) pairs in textual appearance order, which is the key
enumeration order of a JavaScript object with non-numeric string keys.
-/

namespace Fanar
/-- Role of a conversation message, from the LLMMessage interface. -/
inductive LLMRole where
  | user
  | assistant
  | observation
  | system
deriving DecidableEq, Repr

/-- Message of the conversation history, from the LLMMessage interface. -/
structure LLMMessage where
  role : LLMRole
  content : String
deriving DecidableEq, Repr

/-- Tool call, from the ToolCall interface.  The parameter record is kept as
an association list in textual appearance order; values are represented by
their JSON serialization. -/
structure ToolCall where
  tool : String
  parameters : List (String × String)
deriving DecidableEq, Repr

/-- Field maxHistoryLength of PromptEngineeredLLM. -/
def maxHistoryLength : Nat := 20

/-- Field maxContentLength of PromptEngineeredLLM. -/
def maxContentLength : Nat := 5000

/-- Field maxToolSteps of PromptEngineeredLLM. -/
def maxToolSteps : Nat := 6

/-- Field toolCacheTTL of PromptEngineeredLLM (5 minutes in ms). -/
def toolCacheTTL : Nat := 5 * 60 * 1000

/-- Field maxImageCacheSize of PromptEngineeredLLM (100 MB). -/
def maxImageCacheSize : Nat := 100 * 1024 * 1024

/-- Field imageCacheTTL of PromptEngineeredLLM (24 hours in ms). -/
def imageCacheTTL : Nat := 24 * 60 * 60 * 1000

/-- Field maxExecutionsPerTool of PromptEngineeredLLM; none models the
JavaScript fallback Infinity for tools without an entry. -/
def maxExecutionsPerTool (tool : String) : Option Nat :=
  if tool = "fanar_image_gen" then some 1
  else if tool = "fanar_rag" then some 3
  else if tool = "fanar_translate" then some 5
  else none

/-- Truncation of one message performed inside manageHistory: content longer
than maxContentLength is cut to its first maxContentLength characters and the
marker "..." is appended (content.substring(0, maxContentLength) + "..."). -/
def truncMsg (m : LLMMessage) : LLMMessage :=
  if m.content.length > maxContentLength then
    { m with content := String.mk (m.content.data.take maxContentLength) ++ "..." }
  else m

/-- Method manageHistory: if the history exceeds maxHistoryLength keep only
the most recent maxHistoryLength messages (slice(-max)), then truncate every
long message content. -/
def manageHistory (h : List LLMMessage) : List LLMMessage :=
  let h := if h.length > maxHistoryLength then h.drop (h.length - maxHistoryLength) else h
  h.map truncMsg

/-- Method addToHistory: push the message then run manageHistory. -/
def addToHistory (m : LLMMessage) (h : List LLMMessage) : List LLMMessage :=
  manageHistory (h ++ [m])

/-- Invariant of one stored message content forced by manageHistory: either
it is within maxContentLength, or it is a maxContentLength-character prefix
followed by the explicit marker "...". -/
def contentOK (c : String) : Prop :=
  c.length ≤ maxContentLength ∨
    (∃ p : String, c = p ++ "..." ∧ p.length = maxContentLength)

/-- Invariant of the whole history: bounded count and bounded contents. -/
def historyOK (h : List LLMMessage) : Prop :=
  h.length ≤ maxHistoryLength ∧ ∀ m ∈ h, contentOK m.content

/-- Entry of the imageCache map of PromptEngineeredLLM: id to
data/timestamp/size.  The single timestamp field is written at store time and
rewritten by getCachedImage. -/
structure ImageEntry where
  id : String
  data : String
  timestamp : Nat
  size : Nat
deriving DecidableEq, Repr

/-- Size of one entry as the cleanup code reads it: cached.size with the
JavaScript falsy fallback cached.data.length when size is 0. -/
def entrySize (e : ImageEntry) : Nat :=
  if e.size = 0 then e.data.length else e.size

/-- Total byte count of a list of cache entries, as Int to mirror the
JavaScript running totalSize with subtraction. -/
def sumSizes (l : List ImageEntry) : Int :=
  (l.map (fun e => (entrySize e : Int))).sum

/-- Deletion by id from the entry list (Map.delete removes the unique
binding of the key; on a list this drops the first entry with that id). -/
def eraseId (i : String) : List ImageEntry → List ImageEntry
  | [] => []
  | e :: l => if e.id = i then l else e :: eraseId i l

/-- Lookup by id (first match, mirroring Map.get). -/
def findId (i : String) : List ImageEntry → Option ImageEntry
  | [] => none
  | e :: l => if e.id = i then some e else findId i l

/-- In-place timestamp refresh of the entry with the given id. -/
def touchId (i : String) (now : Nat) : List ImageEntry → List ImageEntry
  | [] => []
  | e :: l => if e.id = i then { e with timestamp := now } :: l else e :: touchId i now l

/-- Method getCachedImage: on a hit, set cached.timestamp to Date.now() and
return cached.data; on a miss return undefined and leave the cache alone. -/
def getCachedImage (i : String) (now : Nat) (cache : List ImageEntry) :
    Option String × List ImageEntry :=
  match findId i cache with
  | some e => (some e.data, touchId i now cache)
  | none => (none, cache)

/-- Stable insertion into a timestamp-sorted list, modelling the array sort
comparator (a, b) => a.timestamp - b.timestamp. -/
def insertTs (e : ImageEntry) : List ImageEntry → List ImageEntry
  | [] => [e]
  | f :: l => if e.timestamp ≤ f.timestamp then e :: f :: l else f :: insertTs e l

/-- Stable sort of cache entries by ascending timestamp. -/
def sortByTs : List ImageEntry → List ImageEntry
  | [] => []
  | e :: l => insertTs e (sortByTs l)

/-- Second phase of cleanupImageCache: walk the timestamp-sorted non-expired
entries, and while the running total still exceeds maxImageCacheSize delete
the entry from the map and subtract its size. -/
def evictLoop : List ImageEntry → Int → List ImageEntry → List ImageEntry
  | [], _, m => m
  | e :: rest, total, m =>
    if total ≤ (maxImageCacheSize : Int) then m
    else evictLoop rest (total - (entrySize e : Int)) (eraseId e.id m)

/-- Method cleanupImageCache: snapshot the entries and their total size,
delete every entry with now - timestamp > imageCacheTTL (subtracting its
size from the running total), and if the total still exceeds
maxImageCacheSize delete the remaining entries oldest-timestamp-first until
the total is within the budget. -/
def cleanupImageCache (now : Nat) (cache : List ImageEntry) : List ImageEntry :=
  let entries := cache
  let totalSize : Int := sumSizes entries
  let expired := entries.filter (fun e => decide (now - e.timestamp > imageCacheTTL))
  let cache1 := cache.filter (fun e => !decide (now - e.timestamp > imageCacheTTL))
  let totalSize1 := totalSize - sumSizes expired
  if totalSize1 > (maxImageCacheSize : Int) then
    let sorted := sortByTs (entries.filter (fun e => decide (now - e.timestamp ≤ imageCacheTTL)))
    evictLoop sorted totalSize1 cache1
  else cache1

/-- Uniqueness of the cache keys: a Map holds one binding per id. -/
def idsNodup (l : List ImageEntry) : Prop := (l.map ImageEntry.id).Nodup

/-- Entry of the toolCallCache map of PromptEngineeredLLM. -/
structure CacheEntry where
  key : String
  result : String
  timestamp : Nat
  ttl : Nat
deriving DecidableEq, Repr

/-- Mutable state of a PromptEngineeredLLM object, threaded explicitly.
The three log fields are observation instrumentation: clientLog records each
invocation of the Resilient Client callTool (the client.callTool line of
dispatchTool), executedLog records each batch iteration that was not skipped
(the Executing log line of executeToolCallsBatch), modelCalls / clientCalls
/ timeQueries index the behaviour oracles. -/
structure LLMState where
  history : List LLMMessage
  recentImageIds : List String
  imageCache : List ImageEntry
  toolCallCache : List CacheEntry
  modelCalls : Nat
  clientCalls : Nat
  timeQueries : Nat
  clientLog : List (String × List (String × String))
  executedLog : List ToolCall
deriving DecidableEq, Repr

/-- Fresh state of a newly constructed PromptEngineeredLLM. -/
def initLLMState : LLMState :=
  { history := [], recentImageIds := [], imageCache := [], toolCallCache := [],
    modelCalls := 0, clientCalls := 0, timeQueries := 0,
    clientLog := [], executedLog := [] }

/-- Behaviour of the configuration and of the external collaborators of
PromptEngineeredLLM.  model is the chat-completion interface (indexed by call
count, returning the content or throwing), clientCallTool is the Resilient
Client callTool (result already JSON-serialized, or throwing), recognize is
the offset-annotated match list produced by the three compiled regular
expressions together with JSON.parse (matches that fail to parse or lack
tool/parameters fields are already discarded), simplify is the pure
regex-rewriting pipeline of simplifyResponse, format is formatToolResults
viewed as a pure text normalizer (result, toolName) to observation text, and
time is the Date.now() oracle indexed by query count. -/
structure Env where
  enableCaching : Bool
  maxCacheSize : Nat
  model : Nat → List LLMMessage → Except String String
  clientCallTool : Nat → String → List (String × String) → Except String String
  recognize : String → List (Nat × ToolCall)
  simplify : String → String
  format : String → String → String
  time : Nat → Nat

/-- Association lookup in a parameter record (first binding wins, as in a
JavaScript object where keys are unique). -/
def lookupParamOpt : List (String × String) → String → Option String
  | [], _ => none
  | (k, v) :: l, key => if k = key then some v else lookupParamOpt l key

/-- Lexicographic code point comparison of character lists, modelling the
default string comparator of Array.prototype.sort. -/
def charListLe : List Char → List Char → Bool
  | [], _ => true
  | _ :: _, [] => false
  | c :: cs, d :: ds =>
    if c.toNat < d.toNat then true
    else if d.toNat < c.toNat then false
    else charListLe cs ds

/-- Lexicographic string comparison used by the key sorts. -/
def strLe (a b : String) : Bool := charListLe a.data b.data

/-- Ordered insertion of a key into a sorted key list, modelling
Object.keys(parameters).sort(). -/
def insertStr (x : String) : List String → List String
  | [] => [x]
  | y :: l => if strLe x y then x :: y :: l else y :: insertStr x l

/-- Sort of the key list of a parameter record. -/
def sortStrs : List String → List String
  | [] => []
  | x :: l => insertStr x (sortStrs l)

/-- Method generateCacheKey: tool name plus the sorted key:value pairs
joined with a vertical bar. -/
def generateCacheKey (tool : String) (params : List (String × String)) : String :=
  let sortedParams := String.intercalate "|"
    ((sortStrs (params.map Prod.fst)).map
      (fun k => k ++ ":" ++ (lookupParamOpt params k).getD ""))
  tool ++ ":" ++ sortedParams

/-- Lookup in the toolCallCache (Map.get by key). -/
def lookupCache (key : String) : List CacheEntry → Option CacheEntry
  | [] => none
  | e :: l => if e.key = key then some e else lookupCache key l

/-- Map.set on the toolCallCache: replace the binding in place when the key
is present, otherwise append the new binding at the end. -/
def mapSetCache (key result : String) (now : Nat) : List CacheEntry → List CacheEntry
  | [] => [{ key := key, result := result, timestamp := now, ttl := toolCacheTTL }]
  | e :: l =>
    if e.key = key then { key := key, result := result, timestamp := now, ttl := toolCacheTTL } :: l
    else e :: mapSetCache key result now l

/-- Method cacheToolResult: when the cache has reached maxCacheSize delete
the oldest-inserted entry (the first Map key), then store the result with
timestamp Date.now() and ttl toolCacheTTL. -/
def cacheToolResult (maxSz : Nat) (key result : String) (now : Nat)
    (cache : List CacheEntry) : List CacheEntry :=
  let cache := if cache.length ≥ maxSz then cache.drop 1 else cache
  mapSetCache key result now cache

/-- Method dispatchTool: invoke the Resilient Client callTool; a successful
result is returned JSON-serialized, an exception is caught and converted to
the text Error calling tool name: error, never propagated. -/
def dispatchTool (env : Env) (tool : String) (params : List (String × String))
    (s : LLMState) : String × LLMState :=
  let k := s.clientCalls
  let s := { s with clientCalls := k + 1, clientLog := s.clientLog ++ [(tool, params)] }
  match env.clientCallTool k tool params with
  | .ok r => (r, s)
  | .error e => ("Error calling tool " ++ tool ++ ": " ++ e, s)

/-- Method dispatchToolWithCache: without caching defer to dispatchTool;
with caching return the cached result when the entry exists and its age is
within its ttl, otherwise dispatch and store the result.  The two Date.now()
reads of one dispatch (freshness check and store) are collapsed into the one
argument now. -/
def dispatchToolWithCache (env : Env) (tool : String) (params : List (String × String))
    (now : Nat) (s : LLMState) : String × LLMState :=
  if !env.enableCaching then dispatchTool env tool params s
  else
    let key := generateCacheKey tool params
    let hit := match lookupCache key s.toolCallCache with
      | some c => if now - c.timestamp < c.ttl then some c.result else none
      | none => none
    match hit with
    | some r => (r, s)
    | none =>
      let (r, s') := dispatchTool env tool params s
      (r, { s' with toolCallCache := cacheToolResult env.maxCacheSize key r now s'.toolCallCache })

/-- Serialization of a parameter record by JSON.stringify: the keys appear
in their insertion (textual appearance) order. -/
def stringifyObj (ps : List (String × String)) : String :=
  "\x7b" ++ String.intercalate "," (ps.map (fun kv => "\"" ++ kv.1 ++ "\":" ++ kv.2)) ++ "\x7d"

/-- Serialization of a whole tool call by JSON.stringify(toolCall). -/
def stringifyToolCall (c : ToolCall) : String :=
  "\x7b\"tool\":\"" ++ c.tool ++ "\",\"parameters\":" ++ stringifyObj c.parameters ++ "\x7d"

/-- Deduplication signature used by extractToolCallsOptimized:
call.tool + colon + JSON.stringify(call.parameters), hence the parameter
keys keep their textual appearance order. -/
def canonicalSig (c : ToolCall) : String :=
  c.tool ++ ":" ++ stringifyObj c.parameters

/-- Ordered insertion of a parameter pair by key. -/
def insertPair (x : String × String) : List (String × String) → List (String × String)
  | [] => [x]
  | y :: l => if strLe x.1 y.1 then x :: y :: l else y :: insertPair x l

/-- Sort of a parameter record by key. -/
def sortPairs : List (String × String) → List (String × String)
  | [] => []
  | x :: l => insertPair x (sortPairs l)

/-- Signature with the parameter mapping serialized with sorted keys; this
definition follows the words of the specification (section 4.1) and is
compared against canonicalSig, the signature the code computes. -/
def specCanonicalSig (c : ToolCall) : String :=
  c.tool ++ ":" ++ stringifyObj (sortPairs c.parameters)

/-- Ordered insertion of an offset-annotated match, modelling the stable
array sort comparator (a, b) => a.index - b.index. -/
def insertIdx (x : Nat × ToolCall) : List (Nat × ToolCall) → List (Nat × ToolCall)
  | [] => [x]
  | y :: l => if x.1 ≤ y.1 then x :: y :: l else y :: insertIdx x l

/-- Stable sort of the collected matches by ascending text offset. -/
def sortByIdx : List (Nat × ToolCall) → List (Nat × ToolCall)
  | [] => []
  | x :: l => insertIdx x (sortByIdx l)

/-- Deduplication pass of extractToolCallsOptimized: walk the offset-sorted
calls keeping a seen set of signatures, pushing only first occurrences. -/
def dedupLoop (seen : List String) : List ToolCall → List ToolCall
  | [] => []
  | c :: rest =>
    let sig := canonicalSig c
    if sig ∈ seen then dedupLoop seen rest
    else c :: dedupLoop (sig :: seen) rest

/-- Specification-style first-occurrence filter, without an accumulator:
keep the head and drop every later call with the same signature. -/
def dedupSpec : List ToolCall → List ToolCall
  | [] => []
  | c :: rest => c :: dedupSpec (rest.filter (fun d => canonicalSig d ≠ canonicalSig c))
termination_by l => l.length
decreasing_by
  simp only [List.length_cons]
  exact Nat.lt_succ_of_le (List.length_filter_le _ _)

/-- Method extractToolCallsOptimized on the collected matches: sort by
appearance order, drop the offsets, deduplicate by signature. -/
def extractToolCallsOptimized (env : Env) (content : String) : List ToolCall :=
  dedupLoop [] ((sortByIdx (env.recognize content)).map Prod.snd)

/-- Environment whose recognizers yield two matches with the same tool and
the same parameter mapping written with the keys in opposite orders. -/
def exEnvC3 : Env :=
  { enableCaching := true, maxCacheSize := 100,
    model := fun _ _ => .ok "", clientCallTool := fun _ _ _ => .ok "",
    recognize := fun _ =>
      [(0, { tool := "t", parameters := [("a", "1"), ("b", "2")] }),
       (10, { tool := "t", parameters := [("b", "2"), ("a", "1")] })],
    simplify := id, format := fun r _ => r, time := fun _ => 0 }

/-- JavaScript whitespace test used by String.prototype.trim, restricted to
the common whitespace characters. -/
def isJsWhitespace (c : Char) : Bool :=
  c = ' ' || c = '\t' || c = '\n' || c = '\r'

/-- Trim of a character list on both ends. -/
def trimChars (l : List Char) : List Char :=
  ((l.dropWhile isJsWhitespace).reverse.dropWhile isJsWhitespace).reverse

/-- userPrompt.trim() of the source, modelled over the character list. -/
def trimStr (s : String) : String := String.mk (trimChars s.data)

/-- Tool definition fetched from the MCP server; the properties object is
represented by its JSON serialization. -/
structure ToolDefinition where
  name : String
  description : String
  propertiesJson : String
  required : List String
deriving DecidableEq, Repr

/-- State-level wrapper of addToHistory. -/
def addToHistoryS (m : LLMMessage) (s : LLMState) : LLMState :=
  { s with history := addToHistory m s.history }

/-- One modelInterface.createChatCompletion call: consume the next index of
the model oracle; a throw carries the state reached so far to the catch. -/
def callModel (env : Env) (messages : List LLMMessage) (s : LLMState) :
    Except (String × LLMState) (String × LLMState) :=
  match env.model s.modelCalls messages with
  | .ok content => .ok (content, { s with modelCalls := s.modelCalls + 1 })
  | .error e => .error (e, { s with modelCalls := s.modelCalls + 1 })

/-- Loop body of executeToolCallsBatch for one non-skipped call: log the
execution, append the assistant tool-call message to history, read the
clock, dispatch through the cache, and format the result. -/
def batchStep (env : Env) (c : ToolCall) (s : LLMState) : String × LLMState :=
  let s₁ := { s with executedLog := s.executedLog ++ [c] }
  let s₂ := addToHistoryS { role := .assistant, content := stringifyToolCall c } s₁
  let now := env.time s₂.timeQueries
  let s₃ := { s₂ with timeQueries := s₂.timeQueries + 1 }
  let r := dispatchToolWithCache env c.tool c.parameters now s₃
  (env.format r.1 c.tool, r.2)

/-- Method executeToolCallsBatch: walk the extracted calls in order; a call
whose per-turn counter has reached its cap is skipped (logged, no
observation text); otherwise run the loop body and bump the counter of that
tool. -/
def executeToolCallsBatch (env : Env) :
    List ToolCall → (String → Nat) → LLMState → List String × (String → Nat) × LLMState
  | [], counts, s => ([], counts, s)
  | c :: rest, counts, s =>
    let currentCount := counts c.tool
    let skip : Bool := match maxExecutionsPerTool c.tool with
      | some cap => decide (currentCount ≥ cap)
      | none => false
    if skip then executeToolCallsBatch env rest counts s
    else
      let r := batchStep env c s
      let rec' := executeToolCallsBatch env rest
        (fun t => if t = c.tool then currentCount + 1 else counts t) r.2
      (r.1 :: rec'.1, rec'.2)

/-- Specification-level execution plan of a batch: the subsequence of the
extracted calls that survives the per-tool per-turn caps, in order. -/
def execPlan (counts : String → Nat) : List ToolCall → List ToolCall
  | [] => []
  | c :: rest =>
    let skip : Bool := match maxExecutionsPerTool c.tool with
      | some cap => decide (counts c.tool ≥ cap)
      | none => false
    if skip then execPlan counts rest
    else c :: execPlan (fun t => if t = c.tool then counts c.tool + 1 else counts t) rest

/-- Method createToolsInstructions over the tool catalog. -/
def createToolsInstructions (tools : List ToolDefinition) : String :=
  tools.foldl (fun acc tool =>
    acc ++ "TOOL: " ++ tool.name ++ "\nDESCRIPTION: " ++ tool.description
      ++ "\nREQUIRED PARAMETERS: " ++ String.intercalate ", " tool.required
      ++ "\nPARAMETER DETAILS: " ++ tool.propertiesJson ++ "\n\n") ""

/-- Method createToolExample: the fixed example text of the system prompt
(braces written with escapes, apostrophes with \x27). -/
def createToolExample : String :=
  "EXAMPLE TOOL CALL FORMAT:\n\nWhen you need to use a tool, respond with ONLY this format:\n\n"
  ++ "```tool_json\n\x7b\"tool\": \"tool_name\", \"parameters\": \x7b\"param1\": \"value1\", \"param2\": \"value2\"\x7d\x7d\n```\n\n"
  ++ "FANAR TOOL EXAMPLES:\n\n1. IMAGE GENERATION:\n   User: \"create an image of a dog\"\n   Response:\n   ```tool_json\n   \x7b\"tool\": \"fanar_image_gen\", \"parameters\": \x7b\"prompt\": \"a beautiful dog\"\x7d\x7d\n   ```\n\n"
  ++ "2. TRANSLATION:\n   User: \"translate \x27hello world\x27 to Arabic\"\n   Response:\n   ```tool_json\n   \x7b\"tool\": \"fanar_translate\", \"parameters\": \x7b\"text\": \"hello world\", \"langpair\": \"en-ar\"\x7d\x7d\n   ```\n\n"
  ++ "3. RAG:\n   User: \"answer questions about AI using RAG\"\n   Response:\n   ```tool_json\n   \x7b\"tool\": \"fanar_rag\", \"parameters\": \x7b\"messages\": [\x7b\"role\": \"user\", \"content\": \"What is artificial intelligence?\"\x7d], \"model\": \"Fanar\"\x7d\x7d\n   ```\n\n"
  ++ "4. IMAGE UNDERSTANDING:\n   User: \"analyze this image and describe what you see\"\n   Response:\n   ```tool_json\n   \x7b\"tool\": \"fanar_image_understanding\", \"parameters\": \x7b\"prompt\": \"Describe what you see in this image\", \"image_b64\": \"base64_encoded_image_data\", \"model\": \"Fanar\"\x7d\x7d\n   ```\n\n"
  ++ "5. THINKING MODE:\n   User: \"think through this complex problem step by step\"\n   Response:\n   ```tool_json\n   \x7b\"tool\": \"fanar_thinking_mode\", \"parameters\": \x7b\"user_input\": \"Solve this complex problem step by step\", \"model\": \"Fanar\"\x7d\x7d\n   ```\n\n"
  ++ "IMPORTANT: \n- ONLY respond with the JSON when using a tool\n- NO explanations or additional text\n- Use the exact tool name from the available tools list\n- Include all required parameters"

/-- Method createSystemPrompt: the rule text, the example block and the tool
catalog rendered into one system message. -/
def createSystemPrompt (tools : List ToolDefinition) : String :=
  let toolExample := createToolExample
  let toolsInstructions := createToolsInstructions tools
  let returnFormat := "\x7b\"tool\": \"tool name\", \"parameters\": \x7b\"parameter name\": \"parameter value\"\x7d\x7d"
  "You are an AI assistant with access to powerful Fanar tools. Follow these rules:\n\n"
  ++ "1. RESPONSE FORMAT:\n   - For SIMPLE requests (greetings, basic questions): Respond naturally and concisely\n   - For COMPLEX requests (requiring tools): Use JSON tool calls, then provide comprehensive final response\n\n"
  ++ "2. TOOL USAGE:\n   - When a tool is needed, respond with ONLY this JSON format:\n   ```tool_json\n   " ++ returnFormat ++ "\n   ```\n   - For multiple tools, execute them sequentially (one at a time)\n   - Wait for each tool\x27s result before proceeding\n\n"
  ++ "3. FINAL RESPONSE REQUIREMENTS:\n   - After completing all tool calls, provide a comprehensive summary\n   - Address all aspects of the user\x27s request\n   - Use complete sentences and proper grammar\n   - Be helpful and informative\n\n"
  ++ "4. IMAGE GENERATION:\n   - Generate at most ONE image per request unless explicitly asked for more\n   - Acknowledge successful generation and describe the content\n\n"
  ++ "5. TOOL CATEGORIES:\n   - fanar_image_gen: Create images from text prompts\n   - fanar_rag: Answer questions with context and references\n   - fanar_image_understanding: Analyze image content\n   - fanar_thinking_mode: Complex reasoning and analysis\n   - fanar_translate: Translate text between languages\n\n"
  ++ "6. IMPORTANT:\n   - Use exact tool names from the available tools list\n   - Include all required parameters\n   - For translation, use proper language codes (e.g., \"en-ar\")\n   - If a tool fails, acknowledge the error and suggest alternatives\n\n"
  ++ toolExample ++ "\n\nAvailable tools:\n" ++ toolsInstructions
  ++ "\nRemember: Keep responses natural and friendly for simple requests, comprehensive for complex ones."

/-- Method generateFinalResponse: one extra model turn asking for the
comprehensive summary of the original request. -/
def generateFinalResponse (env : Env) (systemPrompt userPrompt : String)
    (s : LLMState) : Except (String × LLMState) (String × LLMState) :=
  let finalPrompt :=
    "You have completed all necessary tool calls. Now provide a comprehensive final response that:\n1. Summarizes what was accomplished\n2. Addresses all aspects of the user\x27s request\n3. Uses complete sentences and proper grammar\n\nUser\x27s original request: \"" ++ userPrompt ++ "\"\n\nPlease provide your final comprehensive response:"
  callModel env
    ({ role := .system, content := systemPrompt } :: s.history
      ++ [{ role := .user, content := finalPrompt }]) s

/-- While loop of generateResponse: extract the tool calls of the current
content; when none remain stop, otherwise execute the batch, append every
observation to history after the batch, ask the model again and iterate,
bounded by the remaining fuel (maxToolSteps minus the executed steps). -/
def toolLoop (env : Env) (systemPrompt : String) :
    Nat → String → (String → Nat) → Nat → LLMState →
      Except (String × LLMState) (String × Nat × LLMState)
  | 0, content, _, steps, s => .ok (content, steps, s)
  | fuel + 1, content, counts, steps, s =>
    let toolCalls := extractToolCallsOptimized env content
    if toolCalls.isEmpty then .ok (content, steps, s)
    else
      let b := executeToolCallsBatch env toolCalls counts s
      let s₂ := b.1.foldl
        (fun st r => addToHistoryS { role := .observation, content := r } st) b.2.2
      match callModel env ({ role := .system, content := systemPrompt } :: s₂.history) s₂ with
      | .ok (content', s₃) => toolLoop env systemPrompt fuel content' b.2.1 (steps + 1) s₃
      | .error es => .error es

/-- Body of the try block of generateResponse: reset the recent-image list,
reject a blank prompt, append the user turn, run the first model call, the
tool loop, the optional final synthesis turn, the simplification pass, and
append the assistant turn. -/
def generateResponseTry (env : Env) (tools : List ToolDefinition)
    (userPrompt : String) (s : LLMState) :
    Except (String × LLMState) (String × LLMState) :=
  let s := { s with recentImageIds := [] }
  if (trimStr userPrompt).data.isEmpty then .error ("User prompt cannot be empty", s)
  else
    let s := addToHistoryS { role := .user, content := trimStr userPrompt } s
    let systemPrompt := createSystemPrompt tools
    match callModel env ({ role := .system, content := systemPrompt } :: s.history) s with
    | .error es => .error es
    | .ok (content, s) =>
      match toolLoop env systemPrompt maxToolSteps content (fun _ => 0) 0 s with
      | .error es => .error es
      | .ok (content, steps, s) =>
        match (if steps > 0 then generateFinalResponse env systemPrompt userPrompt s
               else .ok (content, s)) with
        | .error es => .error es
        | .ok (content, s) =>
          let content := env.simplify content
          let s := addToHistoryS { role := .assistant, content := content } s
          .ok (content, s)

/-- Method generateResponse: run the try body; on any internal throw, catch
it, build the descriptive error message, append it to history as an
assistant turn, and return it as the response text.  The function is total:
no failure escapes to the caller. -/
def generateResponse (env : Env) (tools : List ToolDefinition)
    (userPrompt : String) (s : LLMState) : String × LLMState :=
  match generateResponseTry env tools userPrompt s with
  | .ok (r, s') => (r, s')
  | .error (e, s') =>
    let errorMessage := "Error processing request: " ++ e
    (errorMessage, addToHistoryS { role := .assistant, content := errorMessage } s')

/-- Method getAndClearRecentlyGeneratedImages: map the recent id list
through the image cache (dropping missing ids), then clear the recent list. -/
def getAndClearRecentlyGeneratedImages (s : LLMState) :
    List (String × String) × LLMState :=
  let images := s.recentImageIds.filterMap (fun i =>
    match findId i s.imageCache with
    | some e => some (i, e.data)
    | none => none)
  (images, { s with recentImageIds := [] })

/-- Number of calls to a given tool in a call list. -/
def countTool (t : String) (l : List ToolCall) : Nat :=
  (l.filter (fun c => decide (c.tool = t))).length

/-- Environment for the concrete batch executions: caching off, client
always succeeds. -/
def exEnvBatch : Env :=
  { enableCaching := false, maxCacheSize := 100,
    model := fun _ _ => .ok "", clientCallTool := fun _ _ _ => .ok "\"r\"",
    recognize := fun _ => [], simplify := id, format := fun r _ => r,
    time := fun _ => 0 }

/-- Environment whose model interface always throws. -/
def modelThrowsEnv : Env :=
  { enableCaching := true, maxCacheSize := 100,
    model := fun _ _ => .error "boom", clientCallTool := fun _ _ _ => .ok "",
    recognize := fun _ => [], simplify := id, format := fun r _ => r,
    time := fun _ => 0 }

/-- Circuit breaker state of FanarMCPClient: CLOSED, OPEN, HALF_OPEN. -/
inductive CircuitState where
  | closed
  | opened
  | halfOpen
deriving DecidableEq, Repr

/-- Mutable state of a FanarMCPClient object.  ioCount both indexes the
transport behaviour oracle and counts the transport operations attempted, so
an unchanged ioCount means no I/O was attempted. -/
structure ClientState where
  isConnected : Bool
  failureCount : Nat
  lastFailureTime : Nat
  circuitState : CircuitState
  ioCount : Nat
deriving DecidableEq, Repr

/-- Field failureThreshold of FanarMCPClient. -/
def failureThreshold : Nat := 5

/-- Field recoveryTimeout of FanarMCPClient (30 seconds in ms). -/
def recoveryTimeout : Nat := 30000

/-- Fresh state of a newly constructed FanarMCPClient. -/
def initClientState : ClientState :=
  { isConnected := false, failureCount := 0, lastFailureTime := 0,
    circuitState := .closed, ioCount := 0 }

/-- Behaviour of the underlying transport: outcome, observed clock value and
error text or result of the k-th transport operation.  maxRetries is the
clamped configuration value.  The connection pool is always empty in this
sequential model (it bounds concurrent connection attempts only), so the
pool wait of connect never triggers and is omitted. -/
structure ClientEnv where
  maxRetries : Nat
  ioOk : Nat → Bool
  ioTime : Nat → Nat
  ioErr : Nat → String
  ioResult : Nat → String

/-- Method isCircuitOpen: while OPEN, once the recovery timeout has elapsed
since the last failure, flip to HALF_OPEN and report not-open; otherwise
report open.  In every other state report not-open. -/
def isCircuitOpen (now : Nat) (s : ClientState) : Bool × ClientState :=
  if s.circuitState = CircuitState.opened then
    if now - s.lastFailureTime > recoveryTimeout then
      (false, { s with circuitState := CircuitState.halfOpen })
    else (true, s)
  else (false, s)

/-- Method recordFailure: bump the counter, stamp the failure clock, and
open the circuit once the threshold is reached. -/
def recordFailure (now : Nat) (s : ClientState) : ClientState :=
  let fc := s.failureCount + 1
  { s with
    failureCount := fc,
    lastFailureTime := now,
    circuitState := if fc ≥ failureThreshold then CircuitState.opened else s.circuitState }

/-- Method recordSuccess: reset the counter; a HALF_OPEN circuit closes. -/
def recordSuccess (s : ClientState) : ClientState :=
  { s with
    failureCount := 0,
    circuitState := if s.circuitState = CircuitState.halfOpen then CircuitState.closed
      else s.circuitState }

/-- One attempt of attemptConnection: one transport operation; success marks
the client connected and records a success, failure records a failure at the
observed clock value. -/
def attemptConnectionOnce (env : ClientEnv) (s : ClientState) : Bool × ClientState :=
  let k := s.ioCount
  let s := { s with ioCount := k + 1 }
  if env.ioOk k then (true, recordSuccess { s with isConnected := true })
  else (false, recordFailure (env.ioTime k) s)

/-- Retry loop of attemptConnection: up to the remaining number of attempts,
stopping at the first success; the backoff sleeps only advance the clock
oracle and are not modelled separately. -/
def connectLoop (env : ClientEnv) : Nat → ClientState → Except String Unit × ClientState
  | 0, s => (.error "Failed to connect", s)
  | remaining + 1, s =>
    let r := attemptConnectionOnce env s
    if r.1 then (.ok (), r.2)
    else if remaining = 0 then (.error "Failed to connect", r.2)
    else connectLoop env remaining r.2

/-- Method connect: no-op when already connected; fail fast when the circuit
gate reports open; otherwise run the retry loop. -/
def connect (env : ClientEnv) (now : Nat) (s : ClientState) :
    Except String Unit × ClientState :=
  if s.isConnected then (.ok (), s)
  else
    let g := isCircuitOpen now s
    if g.1 then (.error "Circuit breaker is open - too many recent failures", g.2)
    else connectLoop env env.maxRetries g.2

/-- Method callTool of FanarMCPClient: ensureConnected, validate the tool
name, then one transport operation recording success or failure on the
breaker.  Note that no circuit gate is consulted here. -/
def callToolClient (env : ClientEnv) (toolName : String) (s : ClientState) :
    Except String String × ClientState :=
  if ¬ s.isConnected then (.error "Client not connected. Call connect() first.", s)
  else if (trimStr toolName).data.isEmpty then (.error "Tool name cannot be empty", s)
  else
    let k := s.ioCount
    let s := { s with ioCount := k + 1 }
    if env.ioOk k then (.ok (env.ioResult k), recordSuccess s)
    else (.error ("MCP operation callTool failed: " ++ env.ioErr k),
          recordFailure (env.ioTime k) s)

/-- Transport behaviour for the concrete client runs. -/
def exClientEnv : ClientEnv :=
  { maxRetries := 3, ioOk := fun _ => true, ioTime := fun _ => 1001,
    ioErr := fun _ => "", ioResult := fun _ => "r" }

theorem length_mk_data (l : List Char) : (String.mk l).length = l.length := rfl

theorem truncMsg_contentOK (m : LLMMessage) : contentOK (truncMsg m).content := by
  unfold truncMsg contentOK
  by_cases h : m.content.length > maxContentLength
  · simp only [h, if_pos]
    right
    refine ⟨String.mk (m.content.data.take maxContentLength), rfl, ?_⟩
    rw [length_mk_data, List.length_take]
    have : m.content.data.length = m.content.length := rfl
    omega
  · simp only [h, if_neg, not_false_iff]
    left
    omega

theorem manageHistory_len_le (h : List LLMMessage) :
    (manageHistory h).length ≤ maxHistoryLength ∨
    (manageHistory h).length = h.length := by
  unfold manageHistory
  by_cases hl : h.length > maxHistoryLength
  · left
    simp only [hl, if_pos, List.length_map, List.length_drop]
    omega
  · right
    simp only [hl, if_neg, not_false_iff, List.length_map]

theorem manageHistory_contentOK (h : List LLMMessage) :
    ∀ m ∈ manageHistory h, contentOK m.content := by
  intro m hm
  unfold manageHistory at hm
  simp only [List.mem_map] at hm
  obtain ⟨m', _, rfl⟩ := hm
  exact truncMsg_contentOK m'

theorem addToHistory_historyOK (m : LLMMessage) (h : List LLMMessage) :
    historyOK (addToHistory m h) := by
  constructor
  · unfold addToHistory manageHistory
    by_cases hl : (h ++ [m]).length > maxHistoryLength
    · simp only [hl, if_pos, List.length_map, List.length_drop]
      omega
    · simp only [hl, if_neg, not_false_iff, List.length_map]
      omega
  · exact manageHistory_contentOK _

theorem sumSizes_nil : sumSizes [] = 0 := rfl

theorem sumSizes_cons (e : ImageEntry) (l : List ImageEntry) :
    sumSizes (e :: l) = (entrySize e : Int) + sumSizes l := by
  simp [sumSizes]

theorem sumSizes_nonneg (l : List ImageEntry) : 0 ≤ sumSizes l := by
  induction l with
  | nil => simp [sumSizes]
  | cons e l ih =>
    rw [sumSizes_cons]
    have : (0 : Int) ≤ (entrySize e : Int) := Int.natCast_nonneg _
    omega

theorem sumSizes_perm {l₁ l₂ : List ImageEntry} (h : l₁.Perm l₂) :
    sumSizes l₁ = sumSizes l₂ :=
  List.Perm.sum_eq (List.Perm.map _ h)

theorem sumSizes_filter_add (p : ImageEntry → Bool) (l : List ImageEntry) :
    sumSizes (l.filter p) + sumSizes (l.filter (fun e => !p e)) = sumSizes l := by
  induction l with
  | nil => simp [sumSizes]
  | cons e l ih =>
    by_cases hp : p e
    · simp only [List.filter_cons, hp, Bool.not_true, if_true, if_false, ite_true, ite_false,
        sumSizes_cons, Bool.false_eq_true, cond_true, cond_false]
      omega
    · simp only [List.filter_cons, Bool.not_eq_true] at *
      simp only [hp, Bool.not_false, if_true, if_false, ite_true, ite_false,
        sumSizes_cons, Bool.false_eq_true, cond_true, cond_false]
      omega

theorem insertTs_perm (e : ImageEntry) (l : List ImageEntry) :
    (insertTs e l).Perm (e :: l) := by
  induction l with
  | nil => simp [insertTs]
  | cons f l ih =>
    unfold insertTs
    by_cases h : e.timestamp ≤ f.timestamp
    · simp [h]
    · simp only [h, if_neg, not_false_iff, ite_false]
      exact ((ih.cons f).trans (List.Perm.swap e f l))

theorem sortByTs_perm (l : List ImageEntry) : (sortByTs l).Perm l := by
  induction l with
  | nil => simp [sortByTs]
  | cons e l ih =>
    unfold sortByTs
    exact (insertTs_perm e (sortByTs l)).trans (ih.cons e)

theorem eraseId_sublist (i : String) (l : List ImageEntry) :
    (eraseId i l).Sublist l := by
  induction l with
  | nil => simp [eraseId]
  | cons e l ih =>
    unfold eraseId
    by_cases h : e.id = i
    · simp only [h, if_pos, ite_true]
      exact (List.sublist_cons_self e l)
    · simp only [h, if_neg, not_false_iff, ite_false]
      exact ih.cons₂ e

theorem eraseId_eq_erase (e : ImageEntry) (m : List ImageEntry)
    (h : ∀ x ∈ m, x.id = e.id → x = e) : eraseId e.id m = m.erase e := by
  induction m with
  | nil => simp [eraseId]
  | cons x l ih =>
    by_cases hx : x.id = e.id
    · have hxe : x = e := h x (by simp) hx
      subst hxe
      simp [eraseId, List.erase_cons]
    · have hxe : x ≠ e := fun hc => hx (by rw [hc])
      rw [List.erase_cons_tail]
      · unfold eraseId
        simp only [hx, if_neg, not_false_iff, ite_false]
        rw [ih]
        intro y hy hyid
        exact h y (by simp [hy]) hyid
      · simp [hxe]

theorem evictLoop_bound :
    ∀ (sorted : List ImageEntry) (total : Int) (m : List ImageEntry),
      total = sumSizes m → sorted.Perm m → idsNodup m →
      sumSizes (evictLoop sorted total m) ≤ (maxImageCacheSize : Int) := by
  intro sorted
  induction sorted with
  | nil =>
    intro total m htot hperm _
    have : m = [] := List.Perm.eq_nil hperm.symm
    subst this
    simp only [evictLoop, sumSizes_nil]
    have : (0 : Int) ≤ (maxImageCacheSize : Int) := Int.natCast_nonneg _
    omega
  | cons e rest ih =>
    intro total m htot hperm hnodup
    unfold evictLoop
    by_cases hle : total ≤ (maxImageCacheSize : Int)
    · simp only [hle, if_pos, ite_true]
      omega
    · simp only [hle, if_neg, not_false_iff, ite_false]
      have hmem : e ∈ m := hperm.subset (by simp)
      have hinj : ∀ x ∈ m, ∀ y ∈ m, x.id = y.id → x = y :=
        List.inj_on_of_nodup_map hnodup
      have herase : eraseId e.id m = m.erase e :=
        eraseId_eq_erase e m (fun x hx hxe => hinj x hx e hmem hxe)
      have hpermErase : (m.erase e).Perm rest := by
        have h1 : ((e :: rest).erase e).Perm (m.erase e) := hperm.erase e
        rw [List.erase_cons_head] at h1
        exact h1.symm
      have hconsPerm : m.Perm (e :: m.erase e) := List.perm_cons_erase hmem
      have hsum : sumSizes (m.erase e) = sumSizes m - (entrySize e : Int) := by
        have := sumSizes_perm hconsPerm
        rw [sumSizes_cons] at this
        omega
      have hnodup' : idsNodup (m.erase e) := by
        unfold idsNodup at *
        exact ((m.erase_sublist e).map ImageEntry.id).nodup hnodup
      rw [herase]
      exact ih (total - (entrySize e : Int)) (m.erase e)
        (by omega) hpermErase.symm hnodup'

theorem evictLoop_sublist :
    ∀ (sorted : List ImageEntry) (total : Int) (m : List ImageEntry),
      (evictLoop sorted total m).Sublist m := by
  intro sorted
  induction sorted with
  | nil => intro total m; simp [evictLoop]
  | cons e rest ih =>
    intro total m
    unfold evictLoop
    by_cases hle : total ≤ (maxImageCacheSize : Int)
    · simp [hle]
    · simp only [hle, if_neg, not_false_iff, ite_false]
      exact (ih _ _).trans (eraseId_sublist e.id m)

theorem cleanup_total_le (now : Nat) (cache : List ImageEntry)
    (hnodup : idsNodup cache) :
    sumSizes (cleanupImageCache now cache) ≤ (maxImageCacheSize : Int) := by
  unfold cleanupImageCache
  have hsplit := sumSizes_filter_add (fun e => decide (now - e.timestamp > imageCacheTTL)) cache
  by_cases hbig : sumSizes cache -
      sumSizes (cache.filter (fun e => decide (now - e.timestamp > imageCacheTTL)))
      > (maxImageCacheSize : Int)
  · simp only [hbig, if_pos, ite_true]
    have hfiltEq : cache.filter (fun e => decide (now - e.timestamp ≤ imageCacheTTL))
        = cache.filter (fun e => !decide (now - e.timestamp > imageCacheTTL)) := by
      apply List.filter_congr
      intro e _
      by_cases h : now - e.timestamp ≤ imageCacheTTL
      · simp [h, Nat.not_lt.mpr h]
      · simp [h, Nat.lt_of_not_le h]
    have hnodup1 : idsNodup
        (cache.filter (fun e => !decide (now - e.timestamp > imageCacheTTL))) := by
      unfold idsNodup at *
      exact ((List.filter_sublist cache).map ImageEntry.id).nodup hnodup
    refine evictLoop_bound _ _ _ (by omega) ?_ hnodup1
    rw [hfiltEq]
    exact sortByTs_perm _
  · simp only [hbig, if_neg, not_false_iff, ite_false]
    omega

theorem cleanup_no_stale (now : Nat) (cache : List ImageEntry) :
    ∀ e ∈ cleanupImageCache now cache, now - e.timestamp ≤ imageCacheTTL := by
  intro e he
  unfold cleanupImageCache at he
  have hsub : e ∈ cache.filter (fun e => !decide (now - e.timestamp > imageCacheTTL)) := by
    by_cases hbig : sumSizes cache -
        sumSizes (cache.filter (fun e => decide (now - e.timestamp > imageCacheTTL)))
        > (maxImageCacheSize : Int)
    · simp only [hbig, if_pos, ite_true] at he
      exact (evictLoop_sublist _ _ _).subset he
    · simp only [hbig, if_neg, not_false_iff, ite_false] at he
      exact he
  have := List.of_mem_filter hsub
  simp only [Bool.not_eq_true', decide_eq_false_iff_not, Nat.not_lt] at this
  exact this

theorem touchId_findId (i : String) (now : Nat) :
    ∀ (l : List ImageEntry) (e : ImageEntry), findId i l = some e →
      findId i (touchId i now l) = some { e with timestamp := now } := by
  intro l
  induction l with
  | nil => intro e h; simp [findId] at h
  | cons f l ih =>
    intro e h
    by_cases hf : f.id = i
    · unfold findId at h
      rw [if_pos hf] at h
      injection h with h
      subst h
      simp [touchId, findId, hf]
    · unfold findId at h
      rw [if_neg hf] at h
      unfold touchId
      rw [if_neg hf]
      unfold findId
      rw [if_neg hf]
      exact ih e h

theorem getCachedImage_refreshes (i : String) (now : Nat) (cache : List ImageEntry)
    (e : ImageEntry) (hfind : findId i cache = some e) :
    (getCachedImage i now cache).1 = some e.data ∧
    findId i (getCachedImage i now cache).2 = some { e with timestamp := now } := by
  have h1 : getCachedImage i now cache = (some e.data, touchId i now cache) := by
    unfold getCachedImage
    rw [hfind]
  rw [h1]
  exact ⟨rfl, touchId_findId i now cache e hfind⟩

theorem dedupLoop_eq_dedupSpec :
    ∀ (ms : List ToolCall) (seen : List String),
      dedupLoop seen ms = dedupSpec (ms.filter (fun c => decide (canonicalSig c ∉ seen))) := by
  intro ms
  induction ms with
  | nil => intro seen; simp [dedupLoop, dedupSpec]
  | cons c rest ih =>
    intro seen
    by_cases hm : canonicalSig c ∈ seen
    · simp only [dedupLoop, hm, if_pos, ite_true, List.filter_cons, decide_not,
        decide_eq_true_eq, not_true, Bool.not_eq_true]
      rw [ih seen]
      simp [hm]
    · simp only [dedupLoop, hm, if_neg, not_false_iff, ite_false, List.filter_cons]
      rw [ih (canonicalSig c :: seen)]
      have hfilt : rest.filter (fun d => decide (canonicalSig d ∉ canonicalSig c :: seen))
          = (rest.filter (fun d => decide (canonicalSig d ∉ seen))).filter
              (fun d => decide (canonicalSig d ≠ canonicalSig c)) := by
        rw [List.filter_filter]
        apply List.filter_congr
        intro d _
        by_cases h1 : canonicalSig d = canonicalSig c
        · simp [h1]
        · by_cases h2 : canonicalSig d ∈ seen <;> simp [h1, h2]
      rw [hfilt]
      simp [hm, dedupSpec]

theorem dedupSpec_sublist : ∀ l : List ToolCall, (dedupSpec l).Sublist l := by
  intro l
  induction l using dedupSpec.induct with
  | case1 => simp [dedupSpec]
  | case2 c rest ih =>
    rw [dedupSpec]
    exact (ih.trans (List.filter_sublist rest)).cons₂ c

theorem dedupSpec_sigs_nodup : ∀ l : List ToolCall, ((dedupSpec l).map canonicalSig).Nodup := by
  intro l
  induction l using dedupSpec.induct with
  | case1 => simp [dedupSpec]
  | case2 c rest ih =>
    rw [dedupSpec]
    simp only [List.map_cons, List.nodup_cons]
    refine ⟨?_, ih⟩
    intro hmem
    simp only [List.mem_map] at hmem
    obtain ⟨d, hd, hsig⟩ := hmem
    have := (dedupSpec_sublist _).subset hd
    have := List.of_mem_filter this
    simp only [decide_eq_true_eq] at this
    exact this hsig

theorem insertIdx_perm (x : Nat × ToolCall) (l : List (Nat × ToolCall)) :
    (insertIdx x l).Perm (x :: l) := by
  induction l with
  | nil => simp [insertIdx]
  | cons y l ih =>
    unfold insertIdx
    by_cases h : x.1 ≤ y.1
    · simp [h]
    · simp only [h, if_neg, not_false_iff, ite_false]
      exact ((ih.cons y).trans (List.Perm.swap x y l))

theorem sortByIdx_perm (l : List (Nat × ToolCall)) : (sortByIdx l).Perm l := by
  induction l with
  | nil => simp [sortByIdx]
  | cons x l ih =>
    unfold sortByIdx
    exact (insertIdx_perm x (sortByIdx l)).trans (ih.cons x)

theorem insertIdx_pairwise (x : Nat × ToolCall) (l : List (Nat × ToolCall))
    (h : l.Pairwise (fun a b => a.1 ≤ b.1)) :
    (insertIdx x l).Pairwise (fun a b => a.1 ≤ b.1) := by
  induction l with
  | nil => simp [insertIdx]
  | cons y l ih =>
    rw [List.pairwise_cons] at h
    unfold insertIdx
    by_cases hxy : x.1 ≤ y.1
    · simp only [hxy, if_pos, ite_true]
      rw [List.pairwise_cons]
      refine ⟨?_, List.pairwise_cons.mpr h⟩
      intro z hz
      rcases List.mem_cons.mp hz with hz | hz
      · subst hz; exact hxy
      · exact hxy.trans (h.1 z hz)
    · simp only [hxy, if_neg, not_false_iff, ite_false]
      rw [List.pairwise_cons]
      refine ⟨?_, ih h.2⟩
      intro z hz
      have hz' := (insertIdx_perm x l).subset hz
      rcases List.mem_cons.mp hz' with hz' | hz'
      · subst hz'
        exact Nat.le_of_lt (Nat.lt_of_not_le hxy)
      · exact h.1 z hz'

theorem sortByIdx_pairwise (l : List (Nat × ToolCall)) :
    (sortByIdx l).Pairwise (fun a b => a.1 ≤ b.1) := by
  induction l with
  | nil => simp [sortByIdx]
  | cons x l ih =>
    unfold sortByIdx
    exact insertIdx_pairwise x (sortByIdx l) ih

theorem charListLe_total : ∀ l₁ l₂ : List Char,
    charListLe l₁ l₂ = true ∨ charListLe l₂ l₁ = true := by
  intro l₁
  induction l₁ with
  | nil => intro l₂; left; cases l₂ <;> rfl
  | cons c cs ih =>
    intro l₂
    cases l₂ with
    | nil => right; rfl
    | cons d ds =>
      unfold charListLe
      rcases Nat.lt_trichotomy c.toNat d.toNat with h | h | h
      · left; simp [h]
      · have h' : ¬ c.toNat < d.toNat := by omega
        have h'' : ¬ d.toNat < c.toNat := by omega
        rcases ih ds with hle | hle
        · left; simp [h', h'', hle]
        · right; simp [h', h'', hle]
      · right; simp [h]

theorem charListLe_trans : ∀ l₁ l₂ l₃ : List Char,
    charListLe l₁ l₂ = true → charListLe l₂ l₃ = true → charListLe l₁ l₃ = true := by
  intro l₁
  induction l₁ with
  | nil => intro l₂ l₃ _ _; cases l₃ <;> rfl
  | cons c cs ih =>
    intro l₂ l₃ h12 h23
    cases l₂ with
    | nil => simp [charListLe] at h12
    | cons d ds =>
      cases l₃ with
      | nil => simp [charListLe] at h23
      | cons e es =>
        unfold charListLe at h12 h23 ⊢
        by_cases hcd : c.toNat < d.toNat
        · by_cases hde : d.toNat < e.toNat
          · simp [show c.toNat < e.toNat by omega]
          · rw [if_neg hde] at h23
            by_cases hed : e.toNat < d.toNat
            · rw [if_pos hed] at h23
              simp at h23
            · simp [show c.toNat < e.toNat by omega]
        · rw [if_neg hcd] at h12
          by_cases hdc : d.toNat < c.toNat
          · rw [if_pos hdc] at h12
            simp at h12
          · rw [if_neg hdc] at h12
            by_cases hde : d.toNat < e.toNat
            · simp [show c.toNat < e.toNat by omega]
            · rw [if_neg hde] at h23
              by_cases hed : e.toNat < d.toNat
              · rw [if_pos hed] at h23
                simp at h23
              · rw [if_neg hed] at h23
                rw [if_neg (show ¬ c.toNat < e.toNat by omega),
                    if_neg (show ¬ e.toNat < c.toNat by omega)]
                exact ih ds es h12 h23

theorem charListLe_antisymm : ∀ l₁ l₂ : List Char,
    charListLe l₁ l₂ = true → charListLe l₂ l₁ = true → l₁ = l₂ := by
  intro l₁
  induction l₁ with
  | nil =>
    intro l₂ _ h21
    cases l₂ with
    | nil => rfl
    | cons d ds => simp [charListLe] at h21
  | cons c cs ih =>
    intro l₂ h12 h21
    cases l₂ with
    | nil => simp [charListLe] at h12
    | cons d ds =>
      unfold charListLe at h12 h21
      rcases Nat.lt_trichotomy c.toNat d.toNat with h | h | h
      · simp [show ¬ d.toNat < c.toNat by omega, h] at h21
      · have h1 : ¬ c.toNat < d.toNat := by omega
        have h2 : ¬ d.toNat < c.toNat := by omega
        simp only [h1, h2, if_neg, not_false_iff, ite_false] at h12 h21
        have hcd : c = d := Char.ext (UInt32.ext h)
        rw [hcd, ih ds h12 h21]
      · simp [show ¬ c.toNat < d.toNat by omega, h] at h12

theorem strLe_total (a b : String) : strLe a b = true ∨ strLe b a = true :=
  charListLe_total a.data b.data

theorem strLe_trans {a b c : String} (h₁ : strLe a b = true) (h₂ : strLe b c = true) :
    strLe a c = true :=
  charListLe_trans a.data b.data c.data h₁ h₂

theorem strLe_antisymm {a b : String} (h₁ : strLe a b = true) (h₂ : strLe b a = true) :
    a = b := by
  cases a with
  | mk da =>
    cases b with
    | mk db =>
      have : da = db := charListLe_antisymm da db h₁ h₂
      rw [this]

theorem insertStr_perm (x : String) (l : List String) :
    (insertStr x l).Perm (x :: l) := by
  induction l with
  | nil => simp [insertStr]
  | cons y l ih =>
    unfold insertStr
    by_cases h : strLe x y
    · simp [h]
    · simp only [h, if_neg, not_false_iff, ite_false, Bool.false_eq_true]
      exact ((ih.cons y).trans (List.Perm.swap x y l))

theorem sortStrs_perm (l : List String) : (sortStrs l).Perm l := by
  induction l with
  | nil => simp [sortStrs]
  | cons x l ih =>
    unfold sortStrs
    exact (insertStr_perm x (sortStrs l)).trans (ih.cons x)

theorem insertStr_sorted (x : String) (l : List String)
    (h : l.Pairwise (fun a b => strLe a b = true)) :
    (insertStr x l).Pairwise (fun a b => strLe a b = true) := by
  induction l with
  | nil => simp [insertStr]
  | cons y l ih =>
    rw [List.pairwise_cons] at h
    unfold insertStr
    by_cases hxy : strLe x y
    · simp only [hxy, if_pos, ite_true]
      rw [List.pairwise_cons]
      refine ⟨?_, List.pairwise_cons.mpr h⟩
      intro z hz
      rcases List.mem_cons.mp hz with hz | hz
      · subst hz; exact hxy
      · exact strLe_trans hxy (h.1 z hz)
    · simp only [hxy, if_neg, not_false_iff, ite_false, Bool.false_eq_true]
      rw [List.pairwise_cons]
      refine ⟨?_, ih h.2⟩
      intro z hz
      have hz' := (insertStr_perm x l).subset hz
      rcases List.mem_cons.mp hz' with hz' | hz'
      · rw [hz']
        rcases strLe_total x y with hxy' | hxy'
        · exact absurd hxy' hxy
        · exact hxy'
      · exact h.1 z hz'

theorem sortStrs_sorted (l : List String) :
    (sortStrs l).Pairwise (fun a b => strLe a b = true) := by
  induction l with
  | nil => simp [sortStrs]
  | cons x l ih =>
    unfold sortStrs
    exact insertStr_sorted x (sortStrs l) ih

theorem sorted_eq_of_perm : ∀ {l₁ l₂ : List String}, l₁.Perm l₂ →
    l₁.Pairwise (fun a b => strLe a b = true) →
    l₂.Pairwise (fun a b => strLe a b = true) → l₁ = l₂ := by
  intro l₁
  induction l₁ with
  | nil =>
    intro l₂ hp _ _
    exact (List.Perm.eq_nil hp.symm).symm
  | cons x l ih =>
    intro l₂ hp hs₁ hs₂
    cases l₂ with
    | nil => exact absurd (List.Perm.eq_nil hp) (by simp)
    | cons y m =>
      rw [List.pairwise_cons] at hs₁ hs₂
      have hxy : x = y := by
        have hx : x ∈ y :: m := hp.subset (by simp)
        have hy : y ∈ x :: l := hp.symm.subset (by simp)
        rcases List.mem_cons.mp hx with h | h
        · exact h
        · rcases List.mem_cons.mp hy with h' | h'
          · exact h'.symm
          · exact strLe_antisymm (hs₁.1 y h') (hs₂.1 x h)
      subst hxy
      have hp' : l.Perm m := (List.perm_cons x).mp hp
      rw [ih hp' hs₁.2 hs₂.2]

theorem sortStrs_eq_of_perm {l₁ l₂ : List String} (h : l₁.Perm l₂) :
    sortStrs l₁ = sortStrs l₂ := by
  have hp : (sortStrs l₁).Perm (sortStrs l₂) :=
    ((sortStrs_perm l₁).trans h).trans (sortStrs_perm l₂).symm
  exact sorted_eq_of_perm hp (sortStrs_sorted l₁) (sortStrs_sorted l₂)

theorem lookupParamOpt_eq_none_iff (l : List (String × String)) (k : String) :
    lookupParamOpt l k = none ↔ k ∉ l.map Prod.fst := by
  induction l with
  | nil => simp [lookupParamOpt]
  | cons kv l ih =>
    unfold lookupParamOpt
    by_cases h : kv.1 = k
    · simp [h]
    · simp only [h, if_neg, not_false_iff, ite_false, List.map_cons, List.mem_cons]
      rw [ih]
      constructor
      · intro hn hc
        rcases hc with hc | hc
        · exact h hc.symm
        · exact hn hc
      · intro hn
        exact fun hc => hn (Or.inr hc)

theorem generateCacheKey_eq (tool : String) (p₁ p₂ : List (String × String))
    (hnd1 : (p₁.map Prod.fst).Nodup) (hnd2 : (p₂.map Prod.fst).Nodup)
    (hkv : ∀ k, lookupParamOpt p₁ k = lookupParamOpt p₂ k) :
    generateCacheKey tool p₁ = generateCacheKey tool p₂ := by
  have hmem : ∀ k, k ∈ p₁.map Prod.fst ↔ k ∈ p₂.map Prod.fst := by
    intro k
    rw [← not_iff_not, ← lookupParamOpt_eq_none_iff, ← lookupParamOpt_eq_none_iff, hkv k]
  have hperm : (p₁.map Prod.fst).Perm (p₂.map Prod.fst) :=
    (List.perm_ext_iff_of_nodup hnd1 hnd2).mpr hmem
  have hkeys : sortStrs (p₁.map Prod.fst) = sortStrs (p₂.map Prod.fst) :=
    sortStrs_eq_of_perm hperm
  unfold generateCacheKey
  rw [hkeys]
  have hfun : (fun k => k ++ ":" ++ (lookupParamOpt p₁ k).getD "")
      = (fun k => k ++ ":" ++ (lookupParamOpt p₂ k).getD "") := by
    funext k
    rw [hkv k]
  rw [hfun]

theorem lookupCache_none_iff (key : String) (l : List CacheEntry) :
    lookupCache key l = none ↔ ∀ e ∈ l, e.key ≠ key := by
  induction l with
  | nil => simp [lookupCache]
  | cons e l ih =>
    unfold lookupCache
    by_cases h : e.key = key
    · simp [h]
    · simp only [h, if_neg, not_false_iff, ite_false]
      rw [ih]
      constructor
      · intro hn f hf
        rcases List.mem_cons.mp hf with hf | hf
        · subst hf; exact h
        · exact hn f hf
      · intro hn f hf
        exact hn f (List.mem_cons_of_mem e hf)

theorem mapSetCache_lookup_self (key r : String) (now : Nat) (l : List CacheEntry)
    (h : ∀ e ∈ l, e.key ≠ key) :
    lookupCache key (mapSetCache key r now l)
      = some { key := key, result := r, timestamp := now, ttl := toolCacheTTL } := by
  induction l with
  | nil => simp [mapSetCache, lookupCache]
  | cons e l ih =>
    have he : e.key ≠ key := h e (by simp)
    unfold mapSetCache
    rw [if_neg he]
    unfold lookupCache
    rw [if_neg he]
    exact ih (fun f hf => h f (List.mem_cons_of_mem e hf))

theorem cacheToolResult_lookup_self (maxSz : Nat) (key r : String) (now : Nat)
    (cache : List CacheEntry) (h : lookupCache key cache = none) :
    lookupCache key (cacheToolResult maxSz key r now cache)
      = some { key := key, result := r, timestamp := now, ttl := toolCacheTTL } := by
  have habs := (lookupCache_none_iff key cache).mp h
  unfold cacheToolResult
  by_cases hlen : cache.length ≥ maxSz
  · simp only [hlen, if_pos, ite_true]
    exact mapSetCache_lookup_self key r now _
      (fun e he => habs e ((List.drop_sublist 1 cache).subset he))
  · simp only [hlen, if_neg, not_false_iff, ite_false]
    exact mapSetCache_lookup_self key r now cache habs

theorem dispatchTool_snd (env : Env) (tool : String) (params : List (String × String))
    (s : LLMState) :
    (dispatchTool env tool params s).2
      = { s with clientCalls := s.clientCalls + 1,
                 clientLog := s.clientLog ++ [(tool, params)] } := by
  unfold dispatchTool
  cases h : env.clientCallTool s.clientCalls tool params <;> simp [h]

theorem dispatchToolWithCache_miss (env : Env) (tool : String)
    (params : List (String × String)) (now : Nat) (s : LLMState)
    (hc : env.enableCaching = true)
    (hmiss : lookupCache (generateCacheKey tool params) s.toolCallCache = none) :
    dispatchToolWithCache env tool params now s
      = ((dispatchTool env tool params s).1,
         { (dispatchTool env tool params s).2 with
            toolCallCache := cacheToolResult env.maxCacheSize
              (generateCacheKey tool params) (dispatchTool env tool params s).1 now
              (dispatchTool env tool params s).2.toolCallCache }) := by
  unfold dispatchToolWithCache
  rw [hc]
  simp only [Bool.not_true, Bool.false_eq_true, if_false, ite_false, hmiss]

theorem dispatchToolWithCache_hit (env : Env) (tool : String)
    (params : List (String × String)) (now : Nat) (s : LLMState) (c : CacheEntry)
    (hc : env.enableCaching = true)
    (hhit : lookupCache (generateCacheKey tool params) s.toolCallCache = some c)
    (httl : now - c.timestamp < c.ttl) :
    dispatchToolWithCache env tool params now s = (c.result, s) := by
  unfold dispatchToolWithCache
  rw [hc]
  simp only [Bool.not_true, Bool.false_eq_true, if_false, ite_false, hhit, httl,
    if_pos, ite_true]

theorem dispatchTool_fst_error (env : Env) (tool : String)
    (params : List (String × String)) (s : LLMState) (err : String)
    (herr : env.clientCallTool s.clientCalls tool params = .error err) :
    (dispatchTool env tool params s).1 = "Error calling tool " ++ tool ++ ": " ++ err := by
  simp [dispatchTool, herr]

theorem dispatch_pair_core (env : Env) (tool : String)
    (p₁ p₂ : List (String × String)) (now₁ now₂ : Nat) (s : LLMState)
    (hc : env.enableCaching = true)
    (hkey : generateCacheKey tool p₂ = generateCacheKey tool p₁)
    (hmiss : lookupCache (generateCacheKey tool p₁) s.toolCallCache = none)
    (httl : now₂ - now₁ < toolCacheTTL) :
    dispatchToolWithCache env tool p₂ now₂ (dispatchToolWithCache env tool p₁ now₁ s).2
      = ((dispatchToolWithCache env tool p₁ now₁ s).1,
         (dispatchToolWithCache env tool p₁ now₁ s).2)
    ∧ (dispatchToolWithCache env tool p₁ now₁ s).2.clientLog = s.clientLog ++ [(tool, p₁)] := by
  have h1 := dispatchToolWithCache_miss env tool p₁ now₁ s hc hmiss
  have hsnd := dispatchTool_snd env tool p₁ s
  have hcache : (dispatchToolWithCache env tool p₁ now₁ s).2.toolCallCache
      = cacheToolResult env.maxCacheSize (generateCacheKey tool p₁)
          (dispatchTool env tool p₁ s).1 now₁ s.toolCallCache := by
    rw [h1]
    simp only
    rw [hsnd]
  have hlog : (dispatchToolWithCache env tool p₁ now₁ s).2.clientLog
      = s.clientLog ++ [(tool, p₁)] := by
    rw [h1]
    simp only
    rw [hsnd]
  have hfst : (dispatchToolWithCache env tool p₁ now₁ s).1
      = (dispatchTool env tool p₁ s).1 := by
    rw [h1]
  have hfound : lookupCache (generateCacheKey tool p₁)
      (dispatchToolWithCache env tool p₁ now₁ s).2.toolCallCache
      = some { key := generateCacheKey tool p₁,
               result := (dispatchTool env tool p₁ s).1,
               timestamp := now₁, ttl := toolCacheTTL } := by
    rw [hcache]
    exact cacheToolResult_lookup_self _ _ _ _ _ hmiss
  refine ⟨?_, hlog⟩
  have hhit := dispatchToolWithCache_hit env tool p₂ now₂
    (dispatchToolWithCache env tool p₁ now₁ s).2
    { key := generateCacheKey tool p₁,
      result := (dispatchTool env tool p₁ s).1,
      timestamp := now₁, ttl := toolCacheTTL }
    hc (by rw [hkey]; exact hfound) httl
  rw [hhit, hfst]

/-- C7: two dispatches of the same tool whose parameter records are equal as
maps (same unique keys, same value at every key, any key order), performed
with caching enabled, within the result-cache TTL and on a cache that does
not yet hold the key, invoke the Resilient Client callTool exactly once: the
first dispatch appends the single clientLog entry, and the second dispatch
returns the first result with the state unchanged.  The cache key is the
tool name plus sorted key:value pairs joined with a vertical bar. -/
theorem result_cache_memoizes (env : Env) (tool : String)
    (p₁ p₂ : List (String × String)) (now₁ now₂ : Nat) (s : LLMState)
    (hc : env.enableCaching = true)
    (hnd1 : (p₁.map Prod.fst).Nodup) (hnd2 : (p₂.map Prod.fst).Nodup)
    (hkv : ∀ k, lookupParamOpt p₁ k = lookupParamOpt p₂ k)
    (hmiss : lookupCache (generateCacheKey tool p₁) s.toolCallCache = none)
    (httl : now₂ - now₁ < toolCacheTTL) :
    dispatchToolWithCache env tool p₂ now₂ (dispatchToolWithCache env tool p₁ now₁ s).2
      = ((dispatchToolWithCache env tool p₁ now₁ s).1,
         (dispatchToolWithCache env tool p₁ now₁ s).2)
    ∧ (dispatchToolWithCache env tool p₁ now₁ s).2.clientLog = s.clientLog ++ [(tool, p₁)] :=
  dispatch_pair_core env tool p₁ p₂ now₁ now₂ s hc
    (generateCacheKey_eq tool p₂ p₁ hnd2 hnd1 (fun k => (hkv k).symm)) hmiss httl

/-- Concrete instantiation of result_cache_memoizes: tool t dispatched with
the records a:1,b:2 and b:2,a:1 at times 0 and 10 from the fresh state. -/
theorem result_cache_memoizes_witness :
    dispatchToolWithCache
        { enableCaching := true, maxCacheSize := 100,
          model := fun _ _ => .ok "", clientCallTool := fun _ _ _ => .ok "42",
          recognize := fun _ => [], simplify := id, format := fun r _ => r,
          time := fun _ => 0 }
        "t" [("b", "2"), ("a", "1")] 10
        (dispatchToolWithCache
          { enableCaching := true, maxCacheSize := 100,
            model := fun _ _ => .ok "", clientCallTool := fun _ _ _ => .ok "42",
            recognize := fun _ => [], simplify := id, format := fun r _ => r,
            time := fun _ => 0 }
          "t" [("a", "1"), ("b", "2")] 0 initLLMState).2
      = ((dispatchToolWithCache
          { enableCaching := true, maxCacheSize := 100,
            model := fun _ _ => .ok "", clientCallTool := fun _ _ _ => .ok "42",
            recognize := fun _ => [], simplify := id, format := fun r _ => r,
            time := fun _ => 0 }
          "t" [("a", "1"), ("b", "2")] 0 initLLMState).1,
         (dispatchToolWithCache
          { enableCaching := true, maxCacheSize := 100,
            model := fun _ _ => .ok "", clientCallTool := fun _ _ _ => .ok "42",
            recognize := fun _ => [], simplify := id, format := fun r _ => r,
            time := fun _ => 0 }
          "t" [("a", "1"), ("b", "2")] 0 initLLMState).2)
    ∧ (dispatchToolWithCache
          { enableCaching := true, maxCacheSize := 100,
            model := fun _ _ => .ok "", clientCallTool := fun _ _ _ => .ok "42",
            recognize := fun _ => [], simplify := id, format := fun r _ => r,
            time := fun _ => 0 }
          "t" [("a", "1"), ("b", "2")] 0 initLLMState).2.clientLog
        = initLLMState.clientLog ++ [("t", [("a", "1"), ("b", "2")])] :=
  result_cache_memoizes _ "t" [("a", "1"), ("b", "2")] [("b", "2"), ("a", "1")] 0 10
    initLLMState rfl (by decide) (by decide)
    (by
      intro k
      by_cases h1 : "a" = k
      · subst h1; decide
      · by_cases h2 : "b" = k
        · subst h2; decide
        · simp [lookupParamOpt, h1, h2])
    rfl (by decide)

/-- C10: when the Resilient Client callTool throws, dispatchTool does not
propagate the exception but returns the text Error calling tool name: error
as the result; with caching enabled that error text is cached like a
success, so the identical dispatch within the TTL returns the same error
text with the state unchanged (no further client contact). -/
theorem dispatch_error_text_cached (env : Env) (tool : String)
    (params : List (String × String)) (now₁ now₂ : Nat) (s : LLMState) (err : String)
    (hc : env.enableCaching = true)
    (herr : env.clientCallTool s.clientCalls tool params = .error err)
    (hmiss : lookupCache (generateCacheKey tool params) s.toolCallCache = none)
    (httl : now₂ - now₁ < toolCacheTTL) :
    (dispatchToolWithCache env tool params now₁ s).1
      = "Error calling tool " ++ tool ++ ": " ++ err
    ∧ dispatchToolWithCache env tool params now₂ (dispatchToolWithCache env tool params now₁ s).2
      = ((dispatchToolWithCache env tool params now₁ s).1,
         (dispatchToolWithCache env tool params now₁ s).2)
    ∧ (dispatchToolWithCache env tool params now₁ s).2.clientLog
        = s.clientLog ++ [(tool, params)] := by
  have hcore := dispatch_pair_core env tool params params now₁ now₂ s hc rfl hmiss httl
  refine ⟨?_, hcore.1, hcore.2⟩
  have h1 := dispatchToolWithCache_miss env tool params now₁ s hc hmiss
  rw [h1]
  exact dispatchTool_fst_error env tool params s err herr

/-- Concrete instantiation of dispatch_error_text_cached: a client that
throws boom, dispatched twice at times 0 and 10 from the fresh state. -/
theorem dispatch_error_text_cached_witness :
    (dispatchToolWithCache
        { enableCaching := true, maxCacheSize := 100,
          model := fun _ _ => .ok "", clientCallTool := fun _ _ _ => .error "boom",
          recognize := fun _ => [], simplify := id, format := fun r _ => r,
          time := fun _ => 0 }
        "t" [("x", "1")] 0 initLLMState).1
      = "Error calling tool " ++ "t" ++ ": " ++ "boom"
    ∧ dispatchToolWithCache
        { enableCaching := true, maxCacheSize := 100,
          model := fun _ _ => .ok "", clientCallTool := fun _ _ _ => .error "boom",
          recognize := fun _ => [], simplify := id, format := fun r _ => r,
          time := fun _ => 0 }
        "t" [("x", "1")] 10
        (dispatchToolWithCache
          { enableCaching := true, maxCacheSize := 100,
            model := fun _ _ => .ok "", clientCallTool := fun _ _ _ => .error "boom",
            recognize := fun _ => [], simplify := id, format := fun r _ => r,
            time := fun _ => 0 }
          "t" [("x", "1")] 0 initLLMState).2
      = ((dispatchToolWithCache
          { enableCaching := true, maxCacheSize := 100,
            model := fun _ _ => .ok "", clientCallTool := fun _ _ _ => .error "boom",
            recognize := fun _ => [], simplify := id, format := fun r _ => r,
            time := fun _ => 0 }
          "t" [("x", "1")] 0 initLLMState).1,
         (dispatchToolWithCache
          { enableCaching := true, maxCacheSize := 100,
            model := fun _ _ => .ok "", clientCallTool := fun _ _ _ => .error "boom",
            recognize := fun _ => [], simplify := id, format := fun r _ => r,
            time := fun _ => 0 }
          "t" [("x", "1")] 0 initLLMState).2)
    ∧ (dispatchToolWithCache
          { enableCaching := true, maxCacheSize := 100,
            model := fun _ _ => .ok "", clientCallTool := fun _ _ _ => .error "boom",
            recognize := fun _ => [], simplify := id, format := fun r _ => r,
            time := fun _ => 0 }
          "t" [("x", "1")] 0 initLLMState).2.clientLog
        = initLLMState.clientLog ++ [("t", [("x", "1")])] :=
  dispatch_error_text_cached _ "t" [("x", "1")] 0 10 initLLMState "boom"
    rfl rfl rfl (by decide)

/-- C3 counterexample: two embedded calls with the same tool name and the
same parameter mapping, keys written in different orders, have the same
sorted-keys signature demanded by the claim, yet the extractor keeps both:
the deduplication signature JSON.stringify(call.parameters) preserves the
textual key order, so the claimed collapse to one ToolCall does not happen. -/
theorem extract_sorted_key_dedup_counterexample :
    extractToolCallsOptimized exEnvC3 "out"
      = [{ tool := "t", parameters := [("a", "1"), ("b", "2")] },
         { tool := "t", parameters := [("b", "2"), ("a", "1")] }]
    ∧ specCanonicalSig { tool := "t", parameters := [("a", "1"), ("b", "2")] }
        = specCanonicalSig { tool := "t", parameters := [("b", "2"), ("a", "1")] }
    ∧ ({ tool := "t", parameters := [("a", "1"), ("b", "2")] } : ToolCall)
        ≠ { tool := "t", parameters := [("b", "2"), ("a", "1")] } := by
  refine ⟨?_, by decide, by decide⟩
  decide

/-- C3 (amended): for every model output, the extractor returns the
recognizer matches sorted by text offset ascending (stable sort, a
permutation of the matches), deduplicated by the signature (tool name,
parameter mapping serialized in its textual appearance order), keeping only
the first occurrence of each signature; the resulting signatures are
pairwise distinct.  Two calls with the same mapping but different key orders
have different signatures and are both kept. -/
theorem extract_merge_sort_dedup (env : Env) (content : String) :
    extractToolCallsOptimized env content
      = dedupSpec ((sortByIdx (env.recognize content)).map Prod.snd)
    ∧ (sortByIdx (env.recognize content)).Pairwise (fun a b => a.1 ≤ b.1)
    ∧ (sortByIdx (env.recognize content)).Perm (env.recognize content)
    ∧ ((extractToolCallsOptimized env content).map canonicalSig).Nodup := by
  have h1 : extractToolCallsOptimized env content
      = dedupSpec ((sortByIdx (env.recognize content)).map Prod.snd) := by
    unfold extractToolCallsOptimized
    rw [dedupLoop_eq_dedupSpec]
    congr 1
    apply List.filter_eq_self.mpr
    intro c _
    simp
  refine ⟨h1, sortByIdx_pairwise _, sortByIdx_perm _, ?_⟩
  rw [h1]
  exact dedupSpec_sigs_nodup _

theorem truncMsg_len_5001 (m : LLMMessage) (h : m.content.length = 5001) :
    (truncMsg m).content.length = 5003 := by
  unfold truncMsg
  rw [if_pos (by rw [h]; decide)]
  simp only
  rw [String.length_append, length_mk_data, List.length_take]
  have hd : m.content.data.length = 5001 := h
  rw [hd]
  decide

/-- C5 counterexample: appending a single 5001-character message to the
empty history stores a message whose content length is 5003, strictly more
than the configured maximum content length 5000: the truncation keeps the
5000-character prefix and then appends the three-character marker on top of
the cap. -/
theorem history_content_cap_counterexample :
    ((addToHistory { role := LLMRole.user, content := String.mk (List.replicate 5001 'a') } []).map
        (fun m => m.content.length))
      = [5003]
    ∧ maxContentLength = 5000 := by
  refine ⟨?_, rfl⟩
  unfold addToHistory manageHistory
  rw [if_neg (by simp [maxHistoryLength])]
  simp only [List.nil_append, List.map_cons, List.map_nil, List.map_cons]
  rw [truncMsg_len_5001]
  rw [length_mk_data, List.length_replicate]

/-- C5 (amended): after any sequence of appends starting from the empty
history, the stored message count is at most maxHistoryLength (20) and every
stored content either fits in maxContentLength (5000) or is exactly a
5000-character prefix followed by the explicit marker, hence of length 5003
(the cap plus the marker, not the cap itself). -/
theorem conversation_history_bounds (msgs : List LLMMessage) :
    historyOK (msgs.foldl (fun h m => addToHistory m h) []) := by
  have hstep : ∀ (h : List LLMMessage), historyOK h →
      ∀ (rest : List LLMMessage), historyOK (rest.foldl (fun h m => addToHistory m h) h) := by
    intro h hh rest
    induction rest generalizing h with
    | nil => exact hh
    | cons m rest ih =>
      simp only [List.foldl_cons]
      exact ih (addToHistory m h) (addToHistory_historyOK m h)
  refine hstep [] ⟨by simp [maxHistoryLength], by simp⟩ msgs

/-- C6 counterexample: an artifact stored at time 0 and read at time
imageCacheTTL survives a sweep at time imageCacheTTL + 1 even though its age
since creation exceeds the TTL, because getCachedImage rewrote the single
timestamp field that the sweep tests: the TTL clock is last-access based,
not creation based, so a read does reset it. -/
theorem artifact_ttl_creation_counterexample :
    cleanupImageCache (imageCacheTTL + 1)
        ((getCachedImage "a" imageCacheTTL
          [{ id := "a", data := "d", timestamp := 0, size := 2000 }]).2)
      = [{ id := "a", data := "d", timestamp := imageCacheTTL, size := 2000 }]
    ∧ imageCacheTTL + 1 - 0 > imageCacheTTL := by
  constructor
  · decide
  · decide

/-- C6 (amended): a sweep leaves the total stored bytes within the
configured budget and removes every entry whose time since last access
exceeds the TTL; getCachedImage refreshes the single timestamp of the entry,
which both extends freshness and resets the TTL clock (the TTL is
last-access based, not creation based). -/
theorem artifact_cache_sweep_and_get (now : Nat) (cache : List ImageEntry)
    (hnodup : idsNodup cache) :
    sumSizes (cleanupImageCache now cache) ≤ (maxImageCacheSize : Int)
    ∧ (∀ e ∈ cleanupImageCache now cache, now - e.timestamp ≤ imageCacheTTL)
    ∧ (∀ (i : String) (t : Nat) (e : ImageEntry), findId i cache = some e →
        (getCachedImage i t cache).1 = some e.data ∧
        findId i (getCachedImage i t cache).2 = some { e with timestamp := t }) :=
  ⟨cleanup_total_le now cache hnodup, cleanup_no_stale now cache,
   fun i t e h => getCachedImage_refreshes i t cache e h⟩

/-- Concrete instantiation of artifact_cache_sweep_and_get on a two-entry
cache swept at time 10. -/
theorem artifact_cache_sweep_and_get_witness :
    idsNodup [{ id := "a", data := "img", timestamp := 0, size := 2000 },
              { id := "b", data := "q", timestamp := 5, size := 0 }]
    ∧ (sumSizes (cleanupImageCache 10
          [{ id := "a", data := "img", timestamp := 0, size := 2000 },
           { id := "b", data := "q", timestamp := 5, size := 0 }])
        ≤ (maxImageCacheSize : Int)
      ∧ (∀ e ∈ cleanupImageCache 10
            [{ id := "a", data := "img", timestamp := 0, size := 2000 },
             { id := "b", data := "q", timestamp := 5, size := 0 }],
          10 - e.timestamp ≤ imageCacheTTL)
      ∧ (∀ (i : String) (t : Nat) (e : ImageEntry),
          findId i [{ id := "a", data := "img", timestamp := 0, size := 2000 },
                    { id := "b", data := "q", timestamp := 5, size := 0 }] = some e →
          (getCachedImage i t
            [{ id := "a", data := "img", timestamp := 0, size := 2000 },
             { id := "b", data := "q", timestamp := 5, size := 0 }]).1 = some e.data ∧
          findId i (getCachedImage i t
            [{ id := "a", data := "img", timestamp := 0, size := 2000 },
             { id := "b", data := "q", timestamp := 5, size := 0 }]).2
            = some { e with timestamp := t })) :=
  ⟨by unfold idsNodup; decide,
   artifact_cache_sweep_and_get 10
     [{ id := "a", data := "img", timestamp := 0, size := 2000 },
      { id := "b", data := "q", timestamp := 5, size := 0 }] (by unfold idsNodup; decide)⟩

theorem truncMsg_role (m : LLMMessage) : (truncMsg m).role = m.role := by
  unfold truncMsg
  split <;> rfl

theorem addToHistory_roles (m₀ : LLMMessage) (h : List LLMMessage) (m : LLMMessage)
    (hm : m ∈ addToHistory m₀ h) :
    m.role = m₀.role ∨ ∃ m' ∈ h, m.role = m'.role := by
  unfold addToHistory manageHistory at hm
  simp only [List.mem_map] at hm
  obtain ⟨o, ho, rfl⟩ := hm
  rw [truncMsg_role]
  have ho' : o ∈ h ++ [m₀] := by
    by_cases hl : (h ++ [m₀]).length > maxHistoryLength
    · simp only [hl, if_pos, ite_true] at ho
      exact (List.drop_sublist _ _).subset ho
    · simp only [hl, if_neg, not_false_iff, ite_false] at ho
      exact ho
  rcases List.mem_append.mp ho' with ho' | ho'
  · exact Or.inr ⟨o, ho', rfl⟩
  · simp only [List.mem_singleton] at ho'
    subst ho'
    exact Or.inl rfl

theorem dispatchToolWithCache_frame (env : Env) (tool : String)
    (params : List (String × String)) (now : Nat) (s : LLMState) :
    (dispatchToolWithCache env tool params now s).2.history = s.history
    ∧ (dispatchToolWithCache env tool params now s).2.executedLog = s.executedLog
    ∧ (dispatchToolWithCache env tool params now s).2.recentImageIds = s.recentImageIds := by
  have hdt : ∀ s' : LLMState,
      (dispatchTool env tool params s').2.history = s'.history
      ∧ (dispatchTool env tool params s').2.executedLog = s'.executedLog
      ∧ (dispatchTool env tool params s').2.recentImageIds = s'.recentImageIds := by
    intro s'
    rw [dispatchTool_snd]
    exact ⟨rfl, rfl, rfl⟩
  unfold dispatchToolWithCache
  by_cases hc : env.enableCaching
  · simp only [hc, Bool.not_true, Bool.false_eq_true, if_false, ite_false]
    cases hl : lookupCache (generateCacheKey tool params) s.toolCallCache with
    | none =>
      simp only [hl]
      rcases hd : dispatchTool env tool params s with ⟨r, s'⟩
      have := hdt s
      rw [hd] at this
      simp only at this
      simp [this.1, this.2.1, this.2.2]
    | some c =>
      by_cases httl : now - c.timestamp < c.ttl
      · simp [hl, httl]
      · simp only [hl, httl, if_neg, not_false_iff, ite_false]
        rcases hd : dispatchTool env tool params s with ⟨r, s'⟩
        have := hdt s
        rw [hd] at this
        simp only at this
        simp [this.1, this.2.1, this.2.2]
  · have hc' : env.enableCaching = false := by
      cases h : env.enableCaching
      · rfl
      · exact absurd h hc
    simp only [hc', Bool.not_false, if_pos, ite_true]
    exact hdt s

theorem batchStep_executedLog (env : Env) (c : ToolCall) (s : LLMState) :
    (batchStep env c s).2.executedLog = s.executedLog ++ [c] := by
  unfold batchStep
  simp only
  rw [(dispatchToolWithCache_frame env c.tool c.parameters _ _).2.1]
  simp [addToHistoryS]

theorem batchStep_history (env : Env) (c : ToolCall) (s : LLMState) :
    (batchStep env c s).2.history
      = addToHistory { role := .assistant, content := stringifyToolCall c } s.history := by
  unfold batchStep
  simp only
  rw [(dispatchToolWithCache_frame env c.tool c.parameters _ _).1]
  simp [addToHistoryS]

theorem batch_bridge (env : Env) : ∀ (calls : List ToolCall)
    (counts : String → Nat) (s : LLMState),
    (executeToolCallsBatch env calls counts s).2.2.executedLog
      = s.executedLog ++ execPlan counts calls
    ∧ (executeToolCallsBatch env calls counts s).1.length
      = (execPlan counts calls).length := by
  intro calls
  induction calls with
  | nil => intro counts s; simp [executeToolCallsBatch, execPlan]
  | cons c rest ih =>
    intro counts s
    unfold executeToolCallsBatch execPlan
    by_cases hskip : (match maxExecutionsPerTool c.tool with
      | some cap => decide (counts c.tool ≥ cap)
      | none => false) = true
    · simp only [hskip, if_pos, ite_true]
      exact ih counts s
    · simp only [hskip, if_neg, not_false_iff, ite_false, Bool.false_eq_true]
      have hrec := ih (fun t => if t = c.tool then counts c.tool + 1 else counts t)
        (batchStep env c s).2
      constructor
      · rw [hrec.1, batchStep_executedLog]
        simp
      · simp only [List.length_cons]
        rw [hrec.2]

theorem batch_no_observation (env : Env) : ∀ (calls : List ToolCall)
    (counts : String → Nat) (s : LLMState),
    (∀ m ∈ s.history, m.role ≠ LLMRole.observation) →
    ∀ m ∈ (executeToolCallsBatch env calls counts s).2.2.history,
      m.role ≠ LLMRole.observation := by
  intro calls
  induction calls with
  | nil => intro counts s hclean; simpa [executeToolCallsBatch] using hclean
  | cons c rest ih =>
    intro counts s hclean
    unfold executeToolCallsBatch
    by_cases hskip : (match maxExecutionsPerTool c.tool with
      | some cap => decide (counts c.tool ≥ cap)
      | none => false) = true
    · simp only [hskip, if_pos, ite_true]
      exact ih counts s hclean
    · simp only [hskip, if_neg, not_false_iff, ite_false, Bool.false_eq_true]
      apply ih
      intro m hm
      rw [batchStep_history] at hm
      rcases addToHistory_roles _ _ _ hm with hr | ⟨m', hm', hr⟩
      · rw [hr]; simp
      · rw [hr]; exact hclean m' hm'

theorem countTool_nil (t : String) : countTool t [] = 0 := rfl

theorem countTool_cons (t : String) (c : ToolCall) (l : List ToolCall) :
    countTool t (c :: l) = (if c.tool = t then 1 else 0) + countTool t l := by
  unfold countTool
  by_cases h : c.tool = t
  · simp only [List.filter_cons, h, decide_True, if_pos, ite_true, List.length_cons]
    omega
  · simp [List.filter_cons, h]

theorem execPlan_count (t : String) (cap : Nat)
    (hcap : maxExecutionsPerTool t = some cap) :
    ∀ (calls : List ToolCall) (counts : String → Nat),
      countTool t (execPlan counts calls)
        = min (countTool t calls) (cap - counts t) := by
  intro calls
  induction calls with
  | nil => intro counts; simp [execPlan, countTool_nil]
  | cons c rest ih =>
    intro counts
    by_cases hct : c.tool = t
    · subst hct
      unfold execPlan
      simp only [hcap]
      by_cases hge : counts c.tool ≥ cap
      · simp only [hge, decide_True, if_true, ite_true]
        rw [ih counts, countTool_cons, if_pos rfl]
        omega
      · simp only [hge, decide_False, Bool.false_eq_true, if_false, ite_false]
        rw [countTool_cons, countTool_cons,
            ih (fun u => if u = c.tool then counts c.tool + 1 else counts u)]
        simp only [eq_self_iff_true, if_true, ite_true]
        omega
    · unfold execPlan
      have hne : ¬ (t = c.tool) := fun h => hct h.symm
      rcases hmc : maxExecutionsPerTool c.tool with _ | cap'
      · simp only [hmc, Bool.false_eq_true, if_false, ite_false]
        rw [countTool_cons, if_neg hct, countTool_cons, if_neg hct,
            ih (fun u => if u = c.tool then counts c.tool + 1 else counts u)]
        simp only [hne, if_neg, not_false_iff, ite_false]
        omega
      · by_cases hge' : counts c.tool ≥ cap'
        · simp only [hmc, hge', decide_True, if_true, ite_true]
          rw [ih counts, countTool_cons, if_neg hct]
          omega
        · simp only [hmc, hge', decide_False, Bool.false_eq_true, if_false, ite_false]
          rw [countTool_cons, if_neg hct, countTool_cons, if_neg hct,
              ih (fun u => if u = c.tool then counts c.tool + 1 else counts u)]
          simp only [hne, if_neg, not_false_iff, ite_false]
          omega

/-- C8: within one turn each tool has an independent cap: the executed calls
of the batch are exactly the execution plan (extracted order with over-cap
calls skipped), the number of executed calls of a capped tool is the minimum
of its occurrence count and its remaining budget, and every executed call
produces exactly one observation text (skipped calls produce none) while the
batch itself never fails. -/
theorem per_tool_cap_enforced (env : Env) (calls : List ToolCall)
    (counts : String → Nat) (s : LLMState) (t : String) (cap : Nat)
    (hcap : maxExecutionsPerTool t = some cap) :
    (executeToolCallsBatch env calls counts s).2.2.executedLog
      = s.executedLog ++ execPlan counts calls
    ∧ countTool t (execPlan counts calls)
      = min (countTool t calls) (cap - counts t)
    ∧ (executeToolCallsBatch env calls counts s).1.length
      = (execPlan counts calls).length :=
  ⟨(batch_bridge env calls counts s).1,
   execPlan_count t cap hcap calls counts,
   (batch_bridge env calls counts s).2⟩

/-- Concrete instantiation of per_tool_cap_enforced: fanar_image_gen is
capped at 1, the model emits two calls to it in one turn, exactly the first
one executes. -/
theorem per_tool_cap_enforced_witness :
    (executeToolCallsBatch exEnvBatch
        [{ tool := "fanar_image_gen", parameters := [("prompt", "\"a\"")] },
         { tool := "fanar_image_gen", parameters := [("prompt", "\"b\"")] }]
        (fun _ => 0) initLLMState).2.2.executedLog
      = initLLMState.executedLog ++ execPlan (fun _ => 0)
          [{ tool := "fanar_image_gen", parameters := [("prompt", "\"a\"")] },
           { tool := "fanar_image_gen", parameters := [("prompt", "\"b\"")] }]
    ∧ countTool "fanar_image_gen" (execPlan (fun _ => 0)
          [{ tool := "fanar_image_gen", parameters := [("prompt", "\"a\"")] },
           { tool := "fanar_image_gen", parameters := [("prompt", "\"b\"")] }])
      = min (countTool "fanar_image_gen"
          [{ tool := "fanar_image_gen", parameters := [("prompt", "\"a\"")] },
           { tool := "fanar_image_gen", parameters := [("prompt", "\"b\"")] }])
          (1 - (fun _ => 0) "fanar_image_gen")
    ∧ (executeToolCallsBatch exEnvBatch
        [{ tool := "fanar_image_gen", parameters := [("prompt", "\"a\"")] },
         { tool := "fanar_image_gen", parameters := [("prompt", "\"b\"")] }]
        (fun _ => 0) initLLMState).1.length
      = (execPlan (fun _ => 0)
          [{ tool := "fanar_image_gen", parameters := [("prompt", "\"a\"")] },
           { tool := "fanar_image_gen", parameters := [("prompt", "\"b\"")] }]).length :=
  per_tool_cap_enforced exEnvBatch
    [{ tool := "fanar_image_gen", parameters := [("prompt", "\"a\"")] },
     { tool := "fanar_image_gen", parameters := [("prompt", "\"b\"")] }]
    (fun _ => 0) initLLMState "fanar_image_gen" 1 rfl

/-- C4 counterexample: a batch of two calls to uncapped tools runs both
calls (two observation texts are produced, the execution log shows both, in
order), yet the history after the whole batch contains no observation
message at all: the observation of the first call was not appended to
history before the second call ran — the orchestration loop appends all
observations only after the batch returns. -/
theorem batch_observation_timing_counterexample :
    ((executeToolCallsBatch exEnvBatch
        [{ tool := "t1", parameters := [] }, { tool := "t2", parameters := [] }]
        (fun _ => 0) initLLMState).2.2.history.filter
          (fun m => decide (m.role = LLMRole.observation))) = []
    ∧ (executeToolCallsBatch exEnvBatch
        [{ tool := "t1", parameters := [] }, { tool := "t2", parameters := [] }]
        (fun _ => 0) initLLMState).2.2.executedLog
      = [{ tool := "t1", parameters := [] }, { tool := "t2", parameters := [] }]
    ∧ (executeToolCallsBatch exEnvBatch
        [{ tool := "t1", parameters := [] }, { tool := "t2", parameters := [] }]
        (fun _ => 0) initLLMState).1.length = 2 := by
  refine ⟨?_, by decide, by decide⟩
  decide

/-- C4 (amended): the calls of one extraction batch execute strictly
sequentially in extracted order (skipping only over-cap calls), each
producing exactly one observation text in order; but no observation message
is appended to history during the batch — each executed call appends only
its assistant tool-call message, and the orchestration loop appends all the
observation messages to history after the whole batch completes, before the
next model turn. -/
theorem batch_sequential_observations_after (env : Env) (calls : List ToolCall)
    (counts : String → Nat) (s : LLMState)
    (hclean : ∀ m ∈ s.history, m.role ≠ LLMRole.observation) :
    (executeToolCallsBatch env calls counts s).2.2.executedLog
      = s.executedLog ++ execPlan counts calls
    ∧ (executeToolCallsBatch env calls counts s).1.length
      = (execPlan counts calls).length
    ∧ (∀ m ∈ (executeToolCallsBatch env calls counts s).2.2.history,
        m.role ≠ LLMRole.observation) :=
  ⟨(batch_bridge env calls counts s).1,
   (batch_bridge env calls counts s).2,
   batch_no_observation env calls counts s hclean⟩

/-- Concrete instantiation of batch_sequential_observations_after on a
two-call batch from the fresh state. -/
theorem batch_sequential_observations_after_witness :
    (executeToolCallsBatch exEnvBatch
        [{ tool := "t1", parameters := [] }, { tool := "t2", parameters := [] }]
        (fun _ => 0) initLLMState).2.2.executedLog
      = initLLMState.executedLog ++ execPlan (fun _ => 0)
          [{ tool := "t1", parameters := [] }, { tool := "t2", parameters := [] }]
    ∧ (executeToolCallsBatch exEnvBatch
        [{ tool := "t1", parameters := [] }, { tool := "t2", parameters := [] }]
        (fun _ => 0) initLLMState).1.length
      = (execPlan (fun _ => 0)
          [{ tool := "t1", parameters := [] }, { tool := "t2", parameters := [] }]).length
    ∧ (∀ m ∈ (executeToolCallsBatch exEnvBatch
        [{ tool := "t1", parameters := [] }, { tool := "t2", parameters := [] }]
        (fun _ => 0) initLLMState).2.2.history,
        m.role ≠ LLMRole.observation) :=
  batch_sequential_observations_after exEnvBatch
    [{ tool := "t1", parameters := [] }, { tool := "t2", parameters := [] }]
    (fun _ => 0) initLLMState (by simp [initLLMState])

/-- C9: the recently produced artifact list is surfaced exactly once:
getAndClearRecentlyGeneratedImages clears the list, an immediately repeated
call returns the empty list, and generateResponse is insensitive to the
recent list of its input state because it resets the list at the start of
every orchestration call. -/
theorem recent_images_surfaced_once (env : Env) (tools : List ToolDefinition)
    (p : String) (s : LLMState) :
    (getAndClearRecentlyGeneratedImages s).2.recentImageIds = []
    ∧ (getAndClearRecentlyGeneratedImages
        ((getAndClearRecentlyGeneratedImages s).2)).1 = []
    ∧ generateResponse env tools p s
        = generateResponse env tools p { s with recentImageIds := [] } := by
  refine ⟨rfl, by simp [getAndClearRecentlyGeneratedImages], ?_⟩
  rfl

theorem addToHistory_getLast (m : LLMMessage) (h : List LLMMessage) :
    (addToHistory m h).getLast? = some (truncMsg m) := by
  unfold addToHistory manageHistory
  have hlen : (h ++ [m]).length = h.length + 1 := by simp
  have hm : maxHistoryLength = 20 := rfl
  by_cases hl : (h ++ [m]).length > maxHistoryLength
  · simp only [hl, if_pos, ite_true]
    have hle : (h ++ [m]).length - maxHistoryLength ≤ h.length := by omega
    rw [List.drop_append_of_le_length hle, List.map_append]
    simp
  · simp only [hl, if_neg, not_false_iff, ite_false, List.map_append]
    simp

theorem addToHistoryS_getLast (m : LLMMessage) (s : LLMState) :
    (addToHistoryS m s).history.getLast? = some (truncMsg m) :=
  addToHistory_getLast m s.history

theorem generateResponseTry_ok_last (env : Env) (tools : List ToolDefinition)
    (p : String) (s : LLMState) (r : String) (s' : LLMState)
    (h : generateResponseTry env tools p s = .ok (r, s')) :
    s'.history.getLast? = some (truncMsg { role := LLMRole.assistant, content := r }) := by
  unfold generateResponseTry at h
  simp only [] at h
  split at h
  · exact absurd h (by simp)
  · split at h
    · exact absurd h (by simp)
    · rename_i content s₁ heq
      split at h
      · exact absurd h (by simp)
      · rename_i content₂ steps s₂ heq₂
        split at h
        · exact absurd h (by simp)
        · rename_i content₃ s₃ heq₃
          simp only [Except.ok.injEq, Prod.mk.injEq] at h
          obtain ⟨hr, hs⟩ := h
          subst hr
          subst hs
          exact addToHistoryS_getLast _ _

/-- C1: generateResponse is a total function: for every prompt and every
behaviour of the model interface and tool client it returns a string, the
final history always ends with an assistant turn carrying that string
(truncated by history management), and whenever the try body throws, the
returned string is the descriptive message Error processing request: e and
the state is the throw state with exactly that assistant turn appended. -/
theorem generateResponse_never_raises (env : Env) (tools : List ToolDefinition)
    (p : String) (s : LLMState) :
    ((generateResponse env tools p s).2.history.getLast?
      = some (truncMsg { role := LLMRole.assistant, content := (generateResponse env tools p s).1 }))
    ∧ (∀ (e : String) (se : LLMState),
        generateResponseTry env tools p s = .error (e, se) →
        (generateResponse env tools p s).1 = "Error processing request: " ++ e
        ∧ (generateResponse env tools p s).2
          = addToHistoryS { role := LLMRole.assistant, content := "Error processing request: " ++ e } se) := by
  cases hT : generateResponseTry env tools p s with
  | ok v =>
    rcases v with ⟨r, s'⟩
    have hg : generateResponse env tools p s = (r, s') := by
      unfold generateResponse
      rw [hT]
    rw [hg]
    constructor
    · exact generateResponseTry_ok_last env tools p s r s' hT
    · intro e se he
      exact absurd he (by simp)
  | error v =>
    rcases v with ⟨e₀, s₀⟩
    have hg : generateResponse env tools p s
        = ("Error processing request: " ++ e₀,
           addToHistoryS { role := LLMRole.assistant, content := "Error processing request: " ++ e₀ } s₀) := by
      unfold generateResponse
      rw [hT]
    rw [hg]
    constructor
    · exact addToHistoryS_getLast _ _
    · intro e se he
      simp only [Except.error.injEq, Prod.mk.injEq] at he
      obtain ⟨he₁, he₂⟩ := he
      subst he₁
      subst he₂
      exact ⟨rfl, rfl⟩

/-- Concrete instantiation of generateResponse_never_raises: a model that
throws boom on the prompt hi yields the descriptive error text as the
response, appended to history as the final assistant turn. -/
theorem generateResponse_never_raises_witness :
    generateResponseTry modelThrowsEnv [] "hi" initLLMState
      = .error ("boom",
          { initLLMState with history := [{ role := LLMRole.user, content := "hi" }], modelCalls := 1 })
    ∧ (generateResponse modelThrowsEnv [] "hi" initLLMState).1
      = "Error processing request: boom"
    ∧ (generateResponse modelThrowsEnv [] "hi" initLLMState).2.history.getLast?
      = some (truncMsg { role := LLMRole.assistant, content := (generateResponse modelThrowsEnv [] "hi" initLLMState).1 }) := by
  refine ⟨rfl, ?_, (generateResponse_never_raises modelThrowsEnv [] "hi" initLLMState).1⟩
  exact ((generateResponse_never_raises modelThrowsEnv [] "hi" initLLMState).2 "boom"
    { initLLMState with history := [{ role := LLMRole.user, content := "hi" }], modelCalls := 1 }
    rfl).1

/-- C2 counterexample: a connected client whose circuit is OPEN, only one
millisecond after the last failure, still performs the transport call when
callTool is invoked: ioCount rises from 0 to 1 and the transport result is
returned.  Only connect consults the circuit breaker; callTool (like
listTools, listResources, listPrompts, getPrompt) does not fail fast while
OPEN and does attempt I/O. -/
theorem circuit_open_calltool_counterexample :
    (callToolClient exClientEnv "t"
        { isConnected := true, failureCount := 5, lastFailureTime := 1000,
          circuitState := CircuitState.opened, ioCount := 0 }).2.ioCount = 1
    ∧ (1001 : Nat) - 1000 ≤ recoveryTimeout
    ∧ (callToolClient exClientEnv "t"
        { isConnected := true, failureCount := 5, lastFailureTime := 1000,
          circuitState := CircuitState.opened, ioCount := 0 }).1 = .ok "r" := by
  refine ⟨rfl, by decide, rfl⟩

/-- C2 (amended): the breaker starts CLOSED; five consecutive recorded
failures open it; while OPEN and within the recovery timeout, connect (the
only operation that consults the gate) fails immediately with the state
untouched, hence without I/O; once the timeout has elapsed, the next connect
flips the circuit to HALF_OPEN and is let through to the transport; a
successful probe closes the circuit and resets the counter, a failed probe
reopens it and resets the failure clock; a success while CLOSED resets the
counter and stays CLOSED. -/
theorem circuit_breaker_behaviour :
    initClientState.circuitState = CircuitState.closed
    ∧ (∀ (s : ClientState) (t₁ t₂ t₃ t₄ t₅ : Nat), s.failureCount = 0 →
        (recordFailure t₅ (recordFailure t₄ (recordFailure t₃
          (recordFailure t₂ (recordFailure t₁ s))))).circuitState = CircuitState.opened
        ∧ (recordFailure t₅ (recordFailure t₄ (recordFailure t₃
            (recordFailure t₂ (recordFailure t₁ s))))).failureCount = 5
        ∧ (recordFailure t₅ (recordFailure t₄ (recordFailure t₃
            (recordFailure t₂ (recordFailure t₁ s))))).lastFailureTime = t₅)
    ∧ (∀ (env : ClientEnv) (now : Nat) (s : ClientState),
        s.isConnected = false → s.circuitState = CircuitState.opened →
        now - s.lastFailureTime ≤ recoveryTimeout →
        connect env now s
          = (.error "Circuit breaker is open - too many recent failures", s))
    ∧ (∀ (env : ClientEnv) (now : Nat) (s : ClientState),
        s.isConnected = false → s.circuitState = CircuitState.opened →
        now - s.lastFailureTime > recoveryTimeout →
        connect env now s
          = connectLoop env env.maxRetries { s with circuitState := CircuitState.halfOpen })
    ∧ (∀ (env : ClientEnv) (now : Nat) (s : ClientState),
        s.isConnected = false → s.circuitState = CircuitState.opened →
        now - s.lastFailureTime > recoveryTimeout → env.maxRetries ≥ 1 →
        env.ioOk s.ioCount = true →
        (connect env now s).1 = .ok ()
        ∧ (connect env now s).2.circuitState = CircuitState.closed
        ∧ (connect env now s).2.failureCount = 0
        ∧ (connect env now s).2.isConnected = true)
    ∧ (∀ (env : ClientEnv) (now : Nat) (s : ClientState),
        s.isConnected = false → s.circuitState = CircuitState.opened →
        now - s.lastFailureTime > recoveryTimeout → env.maxRetries = 1 →
        env.ioOk s.ioCount = false → s.failureCount ≥ failureThreshold →
        (connect env now s).1 = .error "Failed to connect"
        ∧ (connect env now s).2.circuitState = CircuitState.opened
        ∧ (connect env now s).2.lastFailureTime = env.ioTime s.ioCount)
    ∧ (∀ s : ClientState, s.circuitState = CircuitState.closed →
        (recordSuccess s).failureCount = 0
        ∧ (recordSuccess s).circuitState = CircuitState.closed) := by
  refine ⟨rfl, ?_, ?_, ?_, ?_, ?_, ?_⟩
  · intro s t₁ t₂ t₃ t₄ t₅ h0
    simp [recordFailure, failureThreshold, h0]
  · intro env now s hconn hopen hle
    unfold connect isCircuitOpen
    rw [hconn, hopen]
    simp only [if_neg (by omega : ¬ now - s.lastFailureTime > recoveryTimeout)]
    simp
  · intro env now s hconn hopen hgt
    unfold connect isCircuitOpen
    rw [hconn, hopen]
    simp only [if_pos hgt]
    simp
  · intro env now s hconn hopen hgt hmr hok
    have h4 : connect env now s
        = connectLoop env env.maxRetries { s with circuitState := CircuitState.halfOpen } := by
      unfold connect isCircuitOpen
      rw [hconn, hopen]
      simp only [if_pos hgt]
      simp
    rw [h4]
    rcases hmrv : env.maxRetries with _ | n
    · omega
    · unfold connectLoop attemptConnectionOnce
      simp only [hok, if_pos, ite_true]
      simp [recordSuccess]
  · intro env now s hconn hopen hgt hmr hfail hfc
    have h4 : connect env now s
        = connectLoop env env.maxRetries { s with circuitState := CircuitState.halfOpen } := by
      unfold connect isCircuitOpen
      rw [hconn, hopen]
      simp only [if_pos hgt]
      simp
    rw [h4, hmr]
    unfold connectLoop attemptConnectionOnce
    simp only [hfail, Bool.false_eq_true, if_false, ite_false, eq_self_iff_true,
      if_true, ite_true, recordFailure]
    refine ⟨trivial, ?_, trivial⟩
    rw [if_pos (show failureThreshold ≤ s.failureCount + 1 from le_trans hfc (Nat.le_succ _))]
  · intro s hclosed
    simp [recordSuccess, hclosed]

/-- Concrete instantiation of circuit_breaker_behaviour: a disconnected
client with five failures and an OPEN circuit, probed one millisecond after
the recovery timeout with a transport that succeeds, reconnects with the
circuit CLOSED and the counter reset. -/
theorem circuit_breaker_behaviour_witness :
    (connect exClientEnv 30001
        { isConnected := false, failureCount := 5, lastFailureTime := 0,
          circuitState := CircuitState.opened, ioCount := 0 }).1 = .ok ()
    ∧ (connect exClientEnv 30001
        { isConnected := false, failureCount := 5, lastFailureTime := 0,
          circuitState := CircuitState.opened, ioCount := 0 }).2.circuitState
      = CircuitState.closed
    ∧ (connect exClientEnv 30001
        { isConnected := false, failureCount := 5, lastFailureTime := 0,
          circuitState := CircuitState.opened, ioCount := 0 }).2.failureCount = 0
    ∧ (connect exClientEnv 30001
        { isConnected := false, failureCount := 5, lastFailureTime := 0,
          circuitState := CircuitState.opened, ioCount := 0 }).2.isConnected = true :=
  (circuit_breaker_behaviour.2.2.2.2.1 exClientEnv 30001
    { isConnected := false, failureCount := 5, lastFailureTime := 0,
      circuitState := CircuitState.opened, ioCount := 0 }
    rfl rfl (by decide) (by decide) rfl)

/-- Concrete instantiation of extract_merge_sort_dedup on the two-match
environment. -/
theorem extract_merge_sort_dedup_witness :
    extractToolCallsOptimized exEnvC3 "out"
      = dedupSpec ((sortByIdx (exEnvC3.recognize "out")).map Prod.snd)
    ∧ (sortByIdx (exEnvC3.recognize "out")).Pairwise (fun a b => a.1 ≤ b.1)
    ∧ (sortByIdx (exEnvC3.recognize "out")).Perm (exEnvC3.recognize "out")
    ∧ ((extractToolCallsOptimized exEnvC3 "out").map canonicalSig).Nodup :=
  extract_merge_sort_dedup exEnvC3 "out"

/-- Concrete instantiation of conversation_history_bounds on a two-message
append sequence. -/
theorem conversation_history_bounds_witness :
    historyOK ([{ role := LLMRole.user, content := "a" },
                { role := LLMRole.assistant, content := "b" }].foldl
      (fun h m => addToHistory m h) []) :=
  conversation_history_bounds
    [{ role := LLMRole.user, content := "a" },
     { role := LLMRole.assistant, content := "b" }]

/-- Concrete instantiation of recent_images_surfaced_once on a state with a
pending recent id. -/
theorem recent_images_surfaced_once_witness :
    (getAndClearRecentlyGeneratedImages
        { initLLMState with recentImageIds := ["img_1"] }).2.recentImageIds = []
    ∧ (getAndClearRecentlyGeneratedImages
        ((getAndClearRecentlyGeneratedImages
          { initLLMState with recentImageIds := ["img_1"] }).2)).1 = []
    ∧ generateResponse exEnvBatch [] "hi"
        { initLLMState with recentImageIds := ["img_1"] }
      = generateResponse exEnvBatch [] "hi"
        { { initLLMState with recentImageIds := ["img_1"] } with recentImageIds := [] } :=
  recent_images_surfaced_once exEnvBatch [] "hi"
    { initLLMState with recentImageIds := ["img_1"] }

end Fanar

